import Mathlib

attribute [local semireducible] Rat.add Rat.mul Rat.sub Rat.inv Rat.ofScientific

/-!
Verification of the payment-transaction engine: offer/discount arithmetic
(`src/handlers/payment_handler.py`) and the Robokassa gateway signature and
webhook protocol (`src/payments/robokassa_handler.py`), shallowly embedded in
Lean. Python `Decimal` amounts are modelled as `ℚ`; `datetime` values as
integer timestamps; dictionaries as association lists.
-/

namespace MD5

/-- Mask for 32-bit words. -/
def mask32 : Nat := 4294967295

/-- Addition modulo 2^32. -/
def add32 (a b : Nat) : Nat := (a + b) % 4294967296

/-- Bitwise complement on 32-bit words. -/
def not32 (x : Nat) : Nat := x ^^^ mask32

/-- Left rotation of a 32-bit word by `n` bits. -/
def rotl (x n : Nat) : Nat := ((x <<< n) ||| (x >>> (32 - n))) &&& mask32

/-- Round function F (rounds 0-15). -/
def auxF (b c d : Nat) : Nat := (b &&& c) ||| (not32 b &&& d)

/-- Round function G (rounds 16-31). -/
def auxG (b c d : Nat) : Nat := (b &&& d) ||| (c &&& not32 d)

/-- Round function H (rounds 32-47). -/
def auxH (b c d : Nat) : Nat := b ^^^ c ^^^ d

/-- Round function I (rounds 48-63). -/
def auxI (b c d : Nat) : Nat := c ^^^ (b ||| not32 d)

/-- The 64 sine-derived additive constants of MD5. -/
def kTable : List Nat :=
  [0xd76aa478, 0xe8c7b756, 0x242070db, 0xc1bdceee,
   0xf57c0faf, 0x4787c62a, 0xa8304613, 0xfd469501,
   0x698098d8, 0x8b44f7af, 0xffff5bb1, 0x895cd7be,
   0x6b901122, 0xfd987193, 0xa679438e, 0x49b40821,
   0xf61e2562, 0xc040b340, 0x265e5a51, 0xe9b6c7aa,
   0xd62f105d, 0x02441453, 0xd8a1e681, 0xe7d3fbc8,
   0x21e1cde6, 0xc33707d6, 0xf4d50d87, 0x455a14ed,
   0xa9e3e905, 0xfcefa3f8, 0x676f02d9, 0x8d2a4c8a,
   0xfffa3942, 0x8771f681, 0x6d9d6122, 0xfde5380c,
   0xa4beea44, 0x4bdecfa9, 0xf6bb4b60, 0xbebfbc70,
   0x289b7ec6, 0xeaa127fa, 0xd4ef3085, 0x04881d05,
   0xd9d4d039, 0xe6db99e5, 0x1fa27cf8, 0xc4ac5665,
   0xf4292244, 0x432aff97, 0xab9423a7, 0xfc93a039,
   0x655b59c3, 0x8f0ccc92, 0xffeff47d, 0x85845dd1,
   0x6fa87e4f, 0xfe2ce6e0, 0xa3014314, 0x4e0811a1,
   0xf7537e82, 0xbd3af235, 0x2ad7d2bb, 0xeb86d391]

/-- The per-round left-rotation amounts of MD5. -/
def sTable : List Nat :=
  [7, 12, 17, 22, 7, 12, 17, 22, 7, 12, 17, 22, 7, 12, 17, 22,
   5, 9, 14, 20, 5, 9, 14, 20, 5, 9, 14, 20, 5, 9, 14, 20,
   4, 11, 16, 23, 4, 11, 16, 23, 4, 11, 16, 23, 4, 11, 16, 23,
   6, 10, 15, 21, 6, 10, 15, 21, 6, 10, 15, 21, 6, 10, 15, 21]

/-- Group a byte list into 32-bit little-endian words. -/
def toWords : List Nat → List Nat
  | b0 :: b1 :: b2 :: b3 :: rest =>
      (b0 ||| (b1 <<< 8) ||| (b2 <<< 16) ||| (b3 <<< 24)) :: toWords rest
  | _ => []

/-- Little-endian byte decomposition of a 64-bit length value. -/
def lenBytes (n : Nat) : List Nat :=
  (List.range 8).map (fun i => (n >>> (8 * i)) &&& 255)

/-- MD5 padding: append 0x80, zero bytes to 56 mod 64, then the 64-bit
bit-length, little-endian. -/
def padMsg (m : List Nat) : List Nat :=
  let l := m.length
  m ++ [128] ++ List.replicate ((119 - l % 64) % 64) 0 ++ lenBytes ((l * 8) % (2 ^ 64))

/-- One of the 64 MD5 rounds, acting on the state `(a, b, c, d)` with the
message words `msg` of the current chunk. -/
def md5Round (msg : List Nat) (st : Nat × Nat × Nat × Nat) (i : Nat) :
    Nat × Nat × Nat × Nat :=
  let a := st.1
  let b := st.2.1
  let c := st.2.2.1
  let d := st.2.2.2
  let f :=
    if i < 16 then auxF b c d
    else if i < 32 then auxG b c d
    else if i < 48 then auxH b c d
    else auxI b c d
  let g :=
    if i < 16 then i
    else if i < 32 then (5 * i + 1) % 16
    else if i < 48 then (3 * i + 5) % 16
    else (7 * i) % 16
  let tmp := (f + a + kTable.getD i 0 + msg.getD g 0) &&& mask32
  (d, add32 b (rotl tmp (sTable.getD i 0)), b, c)

/-- Process one 64-byte chunk, updating the running state. -/
def processChunk (st : Nat × Nat × Nat × Nat) (chunk : List Nat) :
    Nat × Nat × Nat × Nat :=
  let msg := toWords chunk
  let r := (List.range 64).foldl (md5Round msg) st
  (add32 st.1 r.1, add32 st.2.1 r.2.1, add32 st.2.2.1 r.2.2.1,
   add32 st.2.2.2 r.2.2.2)

/-- Split a byte list into 64-byte chunks; the fuel argument bounds the
number of chunks and is passed as the length of the list. -/
def splitChunksAux : Nat → List Nat → List (List Nat)
  | 0, _ => []
  | _, [] => []
  | fuel + 1, l => l.take 64 :: splitChunksAux fuel (l.drop 64)

/-- Split a byte list into 64-byte chunks. -/
def splitChunks (l : List Nat) : List (List Nat) :=
  splitChunksAux l.length l

/-- Little-endian bytes of one 32-bit state word. -/
def wordBytes (w : Nat) : List Nat :=
  [w &&& 255, (w >>> 8) &&& 255, (w >>> 16) &&& 255, (w >>> 24) &&& 255]

/-- Lowercase hexadecimal digit. -/
def hexDigit (n : Nat) : Char :=
  if n < 10 then Char.ofNat (48 + n) else Char.ofNat (87 + n)

/-- Two-digit lowercase hexadecimal rendering of one byte. -/
def byteHexChars (b : Nat) : List Char := [hexDigit (b / 16), hexDigit (b % 16)]

/-- UTF-8 encoding of a single code point. -/
def encodeChar (n : Nat) : List Nat :=
  if n < 128 then [n]
  else if n < 2048 then [192 ||| (n >>> 6), 128 ||| (n &&& 63)]
  else if n < 65536 then
    [224 ||| (n >>> 12), 128 ||| ((n >>> 6) &&& 63), 128 ||| (n &&& 63)]
  else
    [240 ||| (n >>> 18), 128 ||| ((n >>> 12) &&& 63), 128 ||| ((n >>> 6) &&& 63),
     128 ||| (n &&& 63)]

/-- UTF-8 byte sequence of a string (Python `str.encode()`). -/
def strBytes (s : String) : List Nat :=
  s.data.foldr (fun c acc => encodeChar c.toNat ++ acc) []

/-- MD5 digest of a byte list, as the four final state words. -/
def md5Words (m : List Nat) : Nat × Nat × Nat × Nat :=
  (splitChunks (padMsg m)).foldl processChunk
    (0x67452301, 0xefcdab89, 0x98badcfe, 0x10325476)

/-- MD5 digest of a string, rendered as the usual 32-character lowercase
hexadecimal string (Python `hashlib.md5(s.encode()).hexdigest()`). -/
def md5hex (s : String) : String :=
  let st := md5Words (strBytes s)
  let bytes := wordBytes st.1 ++ wordBytes st.2.1 ++ wordBytes st.2.2.1 ++
    wordBytes st.2.2.2
  String.mk (bytes.foldr (fun b acc => byteHexChars b ++ acc) [])

end MD5

namespace Py

/-!
Helpers modelling Python semantics used by the source: `str()` on a float,
`round(x, 2)`, `float()` parsing, dictionary access, and `sorted` keys.
Monetary values (Python `float` and `Decimal`) are modelled as exact
rationals; the float-specific helpers are faithful for values whose decimal
form is exactly representable in binary (all the values used below).
-/

/-- Number of times `p` divides `n` (with explicit fuel, called with `n`). -/
def countFactorAux (p : Nat) : Nat → Nat → Nat
  | 0, _ => 0
  | fuel + 1, n =>
    if 1 < p ∧ n ≠ 0 ∧ n % p = 0 then countFactorAux p fuel (n / p) + 1 else 0

/-- Number of times `p` divides `n`. -/
def countFactor (p n : Nat) : Nat := countFactorAux p n n

/-- Smallest number of decimal digits needed after the point for `q`
(meaningful when the denominator of `q` has only the prime factors 2 and 5,
which is the case for every binary floating-point value). -/
def decExp (q : ℚ) : Nat := max (countFactor 2 q.den) (countFactor 5 q.den)

/-- Pad a digit string with leading zero characters to length `k`. -/
def padZeros (k : Nat) (s : String) : String :=
  if s.length < k then String.mk (List.replicate (k - s.length) '0') ++ s else s

/-- Python `str()` of a float: the shortest decimal form, always with at
least one digit after the point (`str(1000.0) = "1000.0"`). Faithful for
floats whose value is an exact decimal. -/
def pyFloatStr (q : ℚ) : String :=
  let x := if q < 0 then -q else q
  let e := decExp x
  let k := if e = 0 then 1 else e
  let n := (x * ((10 ^ k : ℕ) : ℚ)).num.toNat
  (if q < 0 then "-" else "") ++ toString (n / 10 ^ k) ++ "." ++
    padZeros k (toString (n % 10 ^ k))

/-- Round a rational to an integer, ties to even (the rounding of Python
`round`). -/
def roundHalfEven (q : ℚ) : ℤ :=
  let f := q.floor
  let r := q - (f : ℚ)
  if r < 1 / 2 then f
  else if 1 / 2 < r then f + 1
  else if f % 2 = 0 then f else f + 1

/-- Python `round(x, 2)`: round to 2 decimal places, ties to even. Faithful
for floats whose value is an exact decimal in binary (e.g. `10.125`). -/
def pyRound2 (q : ℚ) : ℚ := ((roundHalfEven (q * 100) : ℤ) : ℚ) / 100

/-- Python `min` on two numbers (returns the first argument on ties). -/
def pyMin (a b : ℚ) : ℚ := if b < a then b else a

/-- Numeric value of a digit list, or `none` if a non-digit occurs. -/
def digitsToNat (cs : List Char) : Option Nat :=
  if cs.all Char.isDigit then
    some (cs.foldl (fun a c => a * 10 + (c.toNat - 48)) 0)
  else none

/-- Python `float()` applied to a string, for plain decimal forms
(optional sign, digits, optional point): exponent and special forms are not
modelled. Returns `none` where Python raises `ValueError`. -/
def pyParseFloat (s : String) : Option ℚ :=
  let cs := ((s.data.dropWhile (fun c => c == ' ')).reverse.dropWhile
    (fun c => c == ' ')).reverse
  let signAndRest : ℚ × List Char :=
    match cs with
    | '-' :: r => (-1, r)
    | '+' :: r => (1, r)
    | r => (1, r)
  let sign := signAndRest.1
  let body := signAndRest.2
  let ip := body.takeWhile Char.isDigit
  let rest := body.dropWhile Char.isDigit
  match rest with
  | [] =>
    match digitsToNat ip with
    | some n => if ip = [] then none else some (sign * n)
    | none => none
  | '.' :: fr =>
    if ip = [] ∧ fr = [] then none
    else
      match digitsToNat ip, digitsToNat fr with
      | some n, some m => some (sign * (n + (m : ℚ) / 10 ^ fr.length))
      | _, _ => none
  | _ => none

/-- Dictionary lookup (`d.get(k)`), on an association list whose keys are
unique, as Python dict keys are. -/
def dictGet {α : Type} (d : List (String × α)) (k : String) : Option α :=
  (d.find? (fun kv => kv.1 == k)).map (fun kv => kv.2)

/-- Dictionary membership (`k in d`). -/
def dictHas {α : Type} (d : List (String × α)) (k : String) : Bool :=
  (dictGet d k).isSome

/-- Dictionary store (`d[k] = v`): overwrite in place when the key exists,
otherwise append (Python dicts keep insertion order and have unique keys). -/
def dictSet {α : Type} : List (String × α) → String → α → List (String × α)
  | [], k, v => [(k, v)]
  | kv :: rest, k, v =>
    if kv.1 == k then (k, v) :: rest else kv :: dictSet rest k v

/-- Lexicographic comparison of character lists by code point. -/
def lexLe : List Char → List Char → Bool
  | [], _ => true
  | _ :: _, [] => false
  | a :: as, b :: bs =>
    if a.toNat < b.toNat then true
    else if b.toNat < a.toNat then false
    else lexLe as bs

/-- String order used by Python `sorted`: lexicographic by code point. -/
def strLe (a b : String) : Bool := lexLe a.data b.data

/-- Key order on association-list entries: first components in ascending
code-point order. -/
def keyLe (x y : String × String) : Prop := strLe x.1 y.1 = true

/-- Insert one key-value pair into a key-sorted list. -/
def insertByKey (kv : String × String) :
    List (String × String) → List (String × String)
  | [] => [kv]
  | x :: xs => if strLe kv.1 x.1 then kv :: x :: xs else x :: insertByKey kv xs

/-- Sort an association list by key, ascending (Python `sorted` over the
keys of a dict, whose keys are unique). -/
def sortByKey : List (String × String) → List (String × String)
  | [] => []
  | x :: xs => insertByKey x (sortByKey xs)

end Py

namespace Robokassa

/-!
Embedding of `src/payments/robokassa_handler.py`. Payment amounts (Python
`float`) are modelled as exact rationals, with `str(amount)` and
`round(amount, 2)` modelled by `Py.pyFloatStr` and `Py.pyRound2`. Webhook
data (`Dict[str, Any]`) is modelled as an association list of string fields.
The URL serialization (`urlencode`) is not modelled: `create_payment_url` is
embedded as the ordered parameter map it serializes.
-/

/-- Robokassa payment status codes. -/
inductive PaymentStatus where
  | PENDING
  | SUCCESS
  | FAILED
  | CANCELLED
  | EXPIRED
deriving DecidableEq

/-- Wire value of a Robokassa payment status. -/
def PaymentStatus.value : PaymentStatus → String
  | .PENDING => "pending"
  | .SUCCESS => "success"
  | .FAILED => "failed"
  | .CANCELLED => "cancelled"
  | .EXPIRED => "expired"

/-- Configuration for the Robokassa payment gateway. -/
structure RobokassaConfig where
  merchant_id : String
  password1 : String
  password2 : String
  test_mode : Bool
deriving DecidableEq

/-- Canonical string `signature_str` built by `_generate_signature`:
`merchant_id:str(amount):order_id[:key=value ...]:password`, with the extra
parameters appended in sorted key order. An empty extra-parameter dict is
falsy in Python and contributes nothing, which coincides with mapping over
the empty list. -/
def signature_str (merchant_id : String) (amount : ℚ) (order_id : String)
    (password : String) (extra_params : Option (List (String × String))) :
    String :=
  let base := [merchant_id, Py.pyFloatStr amount, order_id]
  let withExtra := base ++ (match extra_params with
    | some ps => (Py.sortByKey ps).map (fun kv => kv.1 ++ "=" ++ kv.2)
    | none => [])
  String.intercalate ":" (withExtra ++ [password])

/-- MD5 signature for a Robokassa payment request
(`RobokassaHandler._generate_signature`). -/
def generate_signature (merchant_id : String) (amount : ℚ) (order_id : String)
    (password : String) (extra_params : Option (List (String × String))) :
    String :=
  MD5.md5hex (signature_str merchant_id amount order_id password extra_params)

/-- Constant-time string comparison (`hmac.compare_digest`); its value is
plain string equality. -/
def compare_digest (a b : String) : Bool := a == b

/-- Signature verification (`RobokassaHandler._verify_signature`): tries
`password2` first, then falls back to `password1`. -/
def verify_signature (cfg : RobokassaConfig) (merchant_id : String)
    (amount : ℚ) (order_id : String) (provided_signature : String)
    (extra_params : Option (List (String × String))) : Bool :=
  let expected2 := generate_signature merchant_id amount order_id
    cfg.password2 extra_params
  if compare_digest provided_signature expected2 then true
  else
    let expected1 := generate_signature merchant_id amount order_id
      cfg.password1 extra_params
    if compare_digest provided_signature expected1 then true
    else false

/-- Ordered parameter map assembled by `create_payment_url` (the part the
method serializes with `urlencode`): base fields, optional `Email` and
`Phone`, the extra parameters merged with dict-update semantics, and
`SignatureValue` stored last. `Sum` is `str(round(amount, 2))`; the
signature is computed over the unrounded amount with `password1`, passing
`None` when the extra dict is empty (falsy). -/
def create_payment_url_params (cfg : RobokassaConfig) (amount : ℚ)
    (order_id : String) (description : String) (email : String)
    (phone : String) (extra_params : List (String × String)) :
    List (String × String) :=
  let params := [("MerchantLogin", cfg.merchant_id),
                 ("Sum", Py.pyFloatStr (Py.pyRound2 amount)),
                 ("InvId", order_id),
                 ("Description", description),
                 ("IsTest", if cfg.test_mode then "1" else "0")]
  let params := if email ≠ "" then params ++ [("Email", email)] else params
  let params := if phone ≠ "" then params ++ [("Phone", phone)] else params
  let params := extra_params.foldl (fun d kv => Py.dictSet d kv.1 kv.2) params
  let signature := generate_signature cfg.merchant_id amount order_id
    cfg.password1 (if extra_params = [] then none else some extra_params)
  Py.dictSet params "SignatureValue" signature

/-- Result dictionary returned by `process_webhook`; fields that a branch of
the source does not put into its dictionary are `none`. -/
structure WebhookResult where
  success : Bool
  order_id : Option String
  status : String
  amount : Option ℚ
  operation_id : Option String
  is_test : Option Bool
  message : String
deriving DecidableEq

/-- Field extraction `order_id = str(webhook_data.get("InvId"))`: the
Python `str(None)` of an absent field is the string `"None"`. -/
def webhook_order_id (webhook_data : List (String × String)) : String :=
  match Py.dictGet webhook_data "InvId" with
  | none => "None"
  | some s => s

/-- Field extraction `amount = float(webhook_data.get("Sum", 0))`: an absent
field defaults to `0`; a present unparseable one raises `ValueError`
(`none`). -/
def webhook_amount (webhook_data : List (String × String)) : Option ℚ :=
  match Py.dictGet webhook_data "Sum" with
  | none => some 0
  | some s => Py.pyParseFloat s

/-- Field extraction `signature = webhook_data.get("SignatureValue", "")`. -/
def webhook_signature (webhook_data : List (String × String)) : String :=
  match Py.dictGet webhook_data "SignatureValue" with
  | none => ""
  | some s => s

/-- Field extraction `operation_id = webhook_data.get("OperationId", "")`. -/
def webhook_operation_id (webhook_data : List (String × String)) : String :=
  match Py.dictGet webhook_data "OperationId" with
  | none => ""
  | some s => s

/-- Webhook processing (`RobokassaHandler.process_webhook`): extract fields
(`str(None) = "None"` when `InvId` is absent, amount defaulting to `0` when
`Sum` is absent), verify the signature (with no extra parameters), then the
merchant id, and report success. A `Sum` value Python cannot parse raises
`ValueError`, caught and turned into the error dictionary (its exact
exception text is abstracted). No transaction store is consulted. -/
def process_webhook (cfg : RobokassaConfig)
    (webhook_data : List (String × String)) : WebhookResult :=
  let order_id := webhook_order_id webhook_data
  match webhook_amount webhook_data with
  | none =>
    { success := false, order_id := none, status := PaymentStatus.FAILED.value,
      amount := none, operation_id := none, is_test := none,
      message := "Error processing webhook: invalid Sum" }
  | some amount =>
    let signature := webhook_signature webhook_data
    let operation_id := webhook_operation_id webhook_data
    if verify_signature cfg cfg.merchant_id amount order_id signature none
        = false then
      { success := false, order_id := some order_id,
        status := PaymentStatus.FAILED.value, amount := some amount,
        operation_id := none, is_test := none,
        message := "Signature verification failed" }
    else if Py.dictGet webhook_data "MerchantLogin" ≠ some cfg.merchant_id then
      { success := false, order_id := some order_id,
        status := PaymentStatus.FAILED.value, amount := some amount,
        operation_id := none, is_test := none,
        message := "Merchant ID mismatch" }
    else
      { success := true, order_id := some order_id,
        status := PaymentStatus.SUCCESS.value, amount := some amount,
        operation_id := some operation_id,
        is_test := some (Py.dictGet webhook_data "IsTest" == some "1"),
        message := "Payment verified successfully" }

/-- Structural validation of a webhook request
(`RobokassaHandler.validate_webhook_request`): all four required fields
present and `Sum` parseable as a float. Never called by `process_webhook`. -/
def validate_webhook_request (webhook_data : List (String × String)) :
    Bool × String :=
  match ["InvId", "Sum", "SignatureValue", "MerchantLogin"].find?
      (fun f => !(Py.dictHas webhook_data f)) with
  | some f => (false, "Missing required field: " ++ f)
  | none =>
    match Py.dictGet webhook_data "Sum" with
    | some s =>
      match Py.pyParseFloat s with
      | some _ => (true, "Valid webhook request")
      | none => (false, "Invalid Sum or InvId format")
    | none => (false, "Invalid Sum or InvId format")

end Robokassa

namespace Payment

/-!
Embedding of `src/handlers/payment_handler.py`. `Decimal` amounts are exact
rationals; `datetime` values are integer timestamps and the current time is
an explicit `now` argument; the offer dictionary is the insertion-ordered
list of its values (keys are the unique offer ids); Python truthiness of
optional numeric fields (`None` and zero are falsy) is modelled explicitly.
-/

/-- Payment status enumeration. -/
inductive PaymentStatus where
  | PENDING
  | PROCESSING
  | COMPLETED
  | FAILED
  | CANCELLED
  | REFUNDED
deriving DecidableEq

/-- Wire value of a payment status. -/
def PaymentStatus.value : PaymentStatus → String
  | .PENDING => "pending"
  | .PROCESSING => "processing"
  | .COMPLETED => "completed"
  | .FAILED => "failed"
  | .CANCELLED => "cancelled"
  | .REFUNDED => "refunded"

/-- Available payment methods. -/
inductive PaymentMethod where
  | SBP
  | CARD
  | WALLET
  | BANK_TRANSFER
deriving DecidableEq

/-- Types of offers available. -/
inductive OfferType where
  | DISCOUNT
  | CASHBACK
  | BONUS
  | FREE_SHIPPING
  | LOYALTY_POINTS
deriving DecidableEq

/-- Truthiness of an optional numeric field: `None` and `0` are falsy. -/
def truthyQ : Option ℚ → Bool
  | none => false
  | some v => v != 0

/-- Truthiness of an optional integer field: `None` and `0` are falsy. -/
def truthyInt : Option ℤ → Bool
  | none => false
  | some v => v != 0

/-- Data class representing an offer. The float `discount_percentage` is an
exact rational; `valid_from`/`valid_until` are optional timestamps (a
`datetime`, when present, is always truthy). -/
structure Offer where
  id : String
  type : OfferType
  title : String
  description : String
  discount_percentage : Option ℚ
  cashback_amount : Option ℚ
  bonus_points : Option ℤ
  min_amount : ℚ
  max_discount : Option ℚ
  valid_from : Option ℤ
  valid_until : Option ℤ
  code : Option String
  is_active : Bool
  usage_limit : Option ℤ
  current_usage : ℤ
deriving DecidableEq

/-- Validity check (`Offer.is_valid`): active, inside the validity window,
and usage remaining. A `usage_limit` of `0` is falsy in Python, so it is
treated as no limit at all. -/
def Offer.is_valid (o : Offer) (now : ℤ) : Bool :=
  if o.is_active = false then false
  else if (match o.valid_from with
           | some t => decide (now < t)
           | none => false) then false
  else if (match o.valid_until with
           | some t => decide (t < now)
           | none => false) then false
  else if (match o.usage_limit with
           | some l => l != 0 && decide (l ≤ o.current_usage)
           | none => false) then false
  else true

/-- Discount computation (`Offer.calculate_discount`). The Python
`Decimal(str(self.discount_percentage / 100))` round trip through a binary
float is modelled as the exact division `p / 100` (they agree whenever
`p / 100` is the shortest decimal form of its nearest float, in particular
for every integer percentage). A `max_discount` of `0` is falsy and imposes
no cap; a zero or absent percentage/cashback amount skips its branch. -/
def Offer.calculate_discount (o : Offer) (now : ℤ) (amount : ℚ) : ℚ :=
  if o.is_valid now = false then 0
  else if amount < o.min_amount then 0
  else if o.type = OfferType.DISCOUNT ∧ truthyQ o.discount_percentage = true then
    let p := match o.discount_percentage with
      | some p => p
      | none => 0
    let discount := amount * (p / 100)
    if truthyQ o.max_discount = true then
      Py.pyMin discount (match o.max_discount with
        | some c => c
        | none => 0)
    else discount
  else if o.type = OfferType.CASHBACK ∧ truthyQ o.cashback_amount = true then
    Py.pyMin (match o.cashback_amount with
      | some c => c
      | none => 0) amount
  else 0

/-- Combined payment offer data (`PaymentOffer`): the offer object as it is
at application time, the applied discount and the earned points. -/
structure PaymentOffer where
  offer : Offer
  applied_discount : ℚ
  points_earned : ℤ
deriving DecidableEq

/-- Lookup of an offer by id (`offer_id in self.offers` / `self.offers[offer_id]`). -/
def findOffer (offers : List Offer) (offer_id : String) : Option Offer :=
  offers.find? (fun o => o.id == offer_id)

/-- In-place mutation of the offer object with the given id. -/
def updateOffer (offers : List Offer) (o : Offer) : List Offer :=
  offers.map (fun x => if x.id == o.id then o else x)

/-- Valid offers whose minimum qualifying amount is met, in catalog
insertion order (`OfferManager.get_available_offers`). -/
def get_available_offers (offers : List Offer) (now : ℤ) (amount : ℚ) :
    List Offer :=
  offers.filter (fun o => o.is_valid now && decide (o.min_amount ≤ amount))

/-- The application loop of `OfferManager.apply_offers`: for each resolved
offer id in order, re-read the live offer object, re-check validity, compute
its discount on `amount - total_discount`, and on a positive discount bump
`current_usage`, record the entry and add to the running total. -/
def apply_offers_loop (now : ℤ) (amount : ℚ) :
    List String → List Offer → ℚ → List PaymentOffer →
    ℚ × List PaymentOffer × List Offer
  | [], offers, total_discount, applied_offers =>
    (total_discount, applied_offers, offers)
  | offer_id :: rest, offers, total_discount, applied_offers =>
    match findOffer offers offer_id with
    | none => apply_offers_loop now amount rest offers total_discount applied_offers
    | some offer =>
      if offer.is_valid now = true then
        let discount := offer.calculate_discount now (amount - total_discount)
        if 0 < discount then
          let bumped := { offer with current_usage := offer.current_usage + 1 }
          let po : PaymentOffer :=
            { offer := bumped, applied_discount := discount,
              points_earned := match offer.bonus_points with
                | some b => b
                | none => 0 }
          apply_offers_loop now amount rest (updateOffer offers bumped)
            (total_discount + discount) (applied_offers ++ [po])
        else apply_offers_loop now amount rest offers total_discount applied_offers
      else apply_offers_loop now amount rest offers total_discount applied_offers

/-- Offer application (`OfferManager.apply_offers`): with a non-empty
explicit id list, exactly the resolvable ids in caller order; otherwise
(`None` or `[]`, both falsy) all available offers in insertion order.
Returns the total discount, the ordered applied entries, and the catalog
after the usage increments. -/
def apply_offers (offers : List Offer) (now : ℤ) (amount : ℚ)
    (offer_ids : Option (List String)) : ℚ × List PaymentOffer × List Offer :=
  let ids := match offer_ids with
    | some l =>
      if l = [] then (get_available_offers offers now amount).map (fun o => o.id)
      else l.filter (fun i => (findOffer offers i).isSome)
    | none => (get_available_offers offers now amount).map (fun o => o.id)
  apply_offers_loop now amount ids offers 0 []

/-- Data class representing a transaction. The `sbp_details` and `metadata`
dictionaries are string association lists; `refunded_at` timestamps are
stored as the decimal rendering of the integer timestamp. -/
structure Transaction where
  id : String
  user_id : String
  amount : ℚ
  currency : String
  payment_method : PaymentMethod
  status : PaymentStatus
  created_at : ℤ
  updated_at : ℤ
  description : Option String
  order_id : Option String
  applied_offers : List PaymentOffer
  total_discount : ℚ
  final_amount : ℚ
  sbp_details : List (String × String)
  metadata : List (String × String)
deriving DecidableEq

/-- Phone body check for the regex `^\+?7\d{10}$`: a `7` followed by exactly
ten digits. -/
def sbpPhoneCore (cs : List Char) : Bool :=
  match (match cs with
         | '+' :: rest => rest
         | rest => rest) with
  | '7' :: rest => decide (rest.length = 10) && rest.all Char.isDigit
  | _ => false

/-- Phone validation (`SBPPaymentProcessor._validate_phone`): spaces and
hyphens removed, then `re.match` with `^\+?7\d{10}$` (whose `$` also
matches just before one trailing newline). -/
def validate_phone (phone : String) : Bool :=
  let cleaned := phone.data.filter (fun c => !(c == ' ') && !(c == '-'))
  sbpPhoneCore cleaned ||
    (match cleaned.getLast? with
     | some c => (c == '\n') && sbpPhoneCore cleaned.dropLast
     | none => false)

/-- Bank code validation (`SBPPaymentProcessor._validate_bank_code`): all
digits (ASCII modelled) and 4 or 5 characters long. -/
def validate_bank_code (bank_code : String) : Bool :=
  !(bank_code.data.isEmpty) && bank_code.data.all Char.isDigit &&
    decide (4 ≤ bank_code.length) && decide (bank_code.length ≤ 5)

/-- SBP details validation (`SBPPaymentProcessor.validate_sbp_details`):
required fields in order, then phone and bank code format checks. -/
def validate_sbp_details (sbp_details : List (String × String)) :
    Bool × String :=
  if Py.dictHas sbp_details "phone" = false then
    (false, "Missing required field: phone")
  else if Py.dictHas sbp_details "bank_code" = false then
    (false, "Missing required field: bank_code")
  else if Py.dictHas sbp_details "account_number" = false then
    (false, "Missing required field: account_number")
  else if validate_phone (match Py.dictGet sbp_details "phone" with
    | some s => s
    | none => "") = false then
    (false, "Invalid phone number format")
  else if validate_bank_code (match Py.dictGet sbp_details "bank_code" with
    | some s => s
    | none => "") = false then
    (false, "Invalid bank code")
  else (true, "")

/-- SBP payment initiation (`SBPPaymentProcessor.initiate_payment`): the
uuid-based payment reference is an explicit argument, and the simulated API
call always succeeds; the `isoformat` timestamp is rendered as the integer
timestamp. -/
def initiate_payment (t : Transaction) (now : ℤ) (payment_ref : String) :
    Bool × String × Option (List (String × String)) :=
  let v := validate_sbp_details t.sbp_details
  if v.1 = false then (false, v.2, none)
  else (true, "Payment initiated successfully",
    some [("payment_reference", payment_ref), ("timestamp", toString now),
          ("status", "pending")])

/-- State of the `PaymentProcessor` orchestrator: the offer catalog, the
transaction dictionary in insertion order, and the id counter. -/
structure PaymentProcessor where
  offer_manager : List Offer
  transactions : List (String × Transaction)
  transaction_counter : ℤ
deriving DecidableEq

/-- Transaction lookup (`self.transactions.get(transaction_id)`). -/
def getTransaction (p : PaymentProcessor) (transaction_id : String) :
    Option Transaction :=
  Py.dictGet p.transactions transaction_id

/-- Transaction store (`self.transactions[transaction_id] = t`), with dict
update-or-append semantics. -/
def setTransaction (p : PaymentProcessor) (transaction_id : String)
    (t : Transaction) : PaymentProcessor :=
  { p with transactions := Py.dictSet p.transactions transaction_id t }

/-- Transaction creation (`PaymentProcessor.create_transaction`): bump the
counter, build the id (`date_str` stands for the `%Y%m%d` date rendering),
apply the offers once, and store the PENDING transaction with
`final_amount = amount - total_discount`. -/
def create_transaction (p : PaymentProcessor) (now : ℤ) (date_str : String)
    (user_id : String) (amount : ℚ) (currency : String)
    (payment_method : PaymentMethod) (description : Option String)
    (order_id : Option String) (offer_ids : Option (List String))
    (sbp_details : List (String × String)) : Transaction × PaymentProcessor :=
  let counter := p.transaction_counter + 1
  let transaction_id := "TXN_" ++ date_str ++ "_" ++
    Py.padZeros 6 (toString counter.toNat)
  let applied := apply_offers p.offer_manager now amount offer_ids
  let total_discount := applied.1
  let final_amount := amount - total_discount
  let t : Transaction :=
    { id := transaction_id, user_id := user_id, amount := amount,
      currency := currency, payment_method := payment_method,
      status := PaymentStatus.PENDING, created_at := now, updated_at := now,
      description := description, order_id := order_id,
      applied_offers := applied.2.1, total_discount := total_discount,
      final_amount := final_amount, sbp_details := sbp_details,
      metadata := [] }
  let p2 := { p with offer_manager := applied.2.2, transaction_counter := counter }
  (t, setTransaction p2 transaction_id t)

/-- Payment processing (`PaymentProcessor.process_payment`): only a PENDING
transaction proceeds; it is moved to PROCESSING and then to COMPLETED or
FAILED depending on the payment method and initiation outcome. The `finally`
clause re-stamps `updated_at` with the same model time. -/
def process_payment (p : PaymentProcessor) (now : ℤ) (payment_ref : String)
    (transaction_id : String) :
    (Bool × String × Option (List (String × String))) × PaymentProcessor :=
  match getTransaction p transaction_id with
  | none => ((false, "Transaction not found", none), p)
  | some transaction =>
    if transaction.status ≠ PaymentStatus.PENDING then
      ((false, "Transaction is " ++ transaction.status.value, none), p)
    else
      let t1 := { transaction with
                  status := PaymentStatus.PROCESSING, updated_at := now }
      if transaction.payment_method = PaymentMethod.SBP then
        let r := initiate_payment t1 now payment_ref
        if r.1 = true then
          let merged := match r.2.2 with
            | some resp => resp.foldl (fun d kv => Py.dictSet d kv.1 kv.2)
                t1.sbp_details
            | none => t1.sbp_details
          let t2 := { t1 with
                      status := PaymentStatus.COMPLETED,
                      sbp_details := merged, updated_at := now }
          ((true, "Payment processed successfully", r.2.2),
            setTransaction p transaction_id t2)
        else
          let t2 := { t1 with
                      status := PaymentStatus.FAILED, updated_at := now }
          ((false, r.2.1, none), setTransaction p transaction_id t2)
      else
        let t2 := { t1 with
                    status := PaymentStatus.COMPLETED, updated_at := now }
        ((true, "Payment processed successfully", none),
          setTransaction p transaction_id t2)

/-- Refund (`PaymentProcessor.refund_transaction`): only a COMPLETED
transaction can be refunded; it moves to REFUNDED and the reason and
timestamp are recorded in the metadata. Any other state is rejected with
the state named in the message and the store untouched. -/
def refund_transaction (p : PaymentProcessor) (now : ℤ)
    (transaction_id : String) (reason : String) :
    (Bool × String) × PaymentProcessor :=
  match getTransaction p transaction_id with
  | none => ((false, "Transaction not found"), p)
  | some transaction =>
    if transaction.status ≠ PaymentStatus.COMPLETED then
      ((false, "Cannot refund transaction in " ++ transaction.status.value ++
        " state"), p)
    else
      let meta := Py.dictSet
        (Py.dictSet transaction.metadata "refund_reason" reason)
        "refunded_at" (toString now)
      let t2 := { transaction with
                  status := PaymentStatus.REFUNDED, updated_at := now,
                  metadata := meta }
      ((true, "Refund processed successfully"),
        setTransaction p transaction_id t2)

end Payment

namespace Spec

/-!
Definitions written from the specification text, used to state the claims
and to compare against the embedded source behaviour.
-/

/-- Discount rule as the spec words it: zero below the minimum qualifying
amount; a percentage offer yields `amount * percentage / 100`, clamped to
`max_discount` whenever a cap is set; a fixed-cashback offer yields
`min(fixed_amount, amount)`; any other type yields zero. -/
def specDiscount (o : Payment.Offer) (amount : ℚ) : ℚ :=
  if amount < o.min_amount then 0
  else if o.type = Payment.OfferType.DISCOUNT then
    let d := amount * ((match o.discount_percentage with
      | some p => p
      | none => 0) / 100)
    match o.max_discount with
    | some c => Py.pyMin d c
    | none => d
  else if o.type = Payment.OfferType.CASHBACK then
    Py.pyMin (match o.cashback_amount with
      | some c => c
      | none => 0) amount
  else 0

/-- Sequential-stacking application loop as the spec words it: the
discount of every offer is computed against the amount remaining after the
previously applied offers (the minimum-amount qualification being checked
against that same remaining amount inside the discount rule), and each
positive application decrements the remaining amount and appends its entry
in order. -/
def applyStackLoop (now : ℤ) :
    List String → List Payment.Offer → ℚ → List Payment.PaymentOffer →
    ℚ × List Payment.PaymentOffer × List Payment.Offer
  | [], offers, remaining, acc => (remaining, acc, offers)
  | offer_id :: rest, offers, remaining, acc =>
    match Payment.findOffer offers offer_id with
    | none => applyStackLoop now rest offers remaining acc
    | some offer =>
      if offer.is_valid now = true then
        let discount := offer.calculate_discount now remaining
        if 0 < discount then
          let bumped := { offer with current_usage := offer.current_usage + 1 }
          let po : Payment.PaymentOffer :=
            { offer := bumped, applied_discount := discount,
              points_earned := match offer.bonus_points with
                | some b => b
                | none => 0 }
          applyStackLoop now rest (Payment.updateOffer offers bumped)
            (remaining - discount) (acc ++ [po])
        else applyStackLoop now rest offers remaining acc
      else applyStackLoop now rest offers remaining acc

/-- Full sequential-stacking application: explicit ids (resolvable ones, in
caller order) when a non-empty list is given, otherwise the available
offers in catalog insertion order; the total discount is the initial
amount minus the final remaining amount. -/
def applyStack (offers : List Payment.Offer) (now : ℤ) (amount : ℚ)
    (offer_ids : Option (List String)) :
    ℚ × List Payment.PaymentOffer × List Payment.Offer :=
  let ids := match offer_ids with
    | some l =>
      if l = [] then
        (Payment.get_available_offers offers now amount).map (fun o => o.id)
      else l.filter (fun i => (Payment.findOffer offers i).isSome)
    | none => (Payment.get_available_offers offers now amount).map (fun o => o.id)
  let r := applyStackLoop now ids offers amount []
  (amount - r.1, r.2)

/-- A string of the form `<digits>.<exactly two digits>`: the shape of an
amount formatted to exactly 2 decimal places. -/
def isTwoDecimalStr (s : String) : Bool :=
  match s.data.reverse with
  | d2 :: d1 :: '.' :: rest =>
    d2.isDigit && d1.isDigit && !rest.isEmpty && rest.all Char.isDigit
  | _ => false

/-- Round-half-up to the 2-decimal minor unit, as required by the spec for
every computed discount. -/
def roundHalfUp2 (q : ℚ) : ℚ := (((q * 100 + 1 / 2 : ℚ).floor : ℤ) : ℚ) / 100

/-- Well-formedness of the percentage of an offer as hypothesised by the claims:
when present, it lies in `[0, 100]`. -/
def percOk (o : Payment.Offer) : Prop :=
  ∀ p : ℚ, o.discount_percentage = some p → 0 ≤ p ∧ p ≤ 100

/-- Usage-limit invariant: whenever a positive usage limit is set, the
current usage does not exceed it. -/
def limOk (o : Payment.Offer) : Prop :=
  ∀ N : ℤ, o.usage_limit = some N → 1 ≤ N → o.current_usage ≤ N

/-- A sequence of `apply_offers` calls, each with its own time, amount and
id selection, threaded through the offer catalog. -/
def applyMany (calls : List (ℤ × ℚ × Option (List String)))
    (offers : List Payment.Offer) : List Payment.Offer :=
  calls.foldl
    (fun os c => (Payment.apply_offers os c.1 c.2.1 c.2.2).2.2) offers

end Spec

namespace Fix

/-!
Concrete inputs used by witnesses and counterexamples.
-/

/-- The default welcome offer: 10 percent discount, capped at 50, minimum
qualifying amount 10, valid on days 0 to 30. -/
def welcome : Payment.Offer :=
  { id := "offer_001", type := Payment.OfferType.DISCOUNT,
    title := "Welcome Discount",
    description := "10 percent discount on first purchase",
    discount_percentage := some 10, cashback_amount := none,
    bonus_points := none, min_amount := 10, max_discount := some 50,
    valid_from := some 0, valid_until := some 30, code := some "WELCOME10",
    is_active := true, usage_limit := none, current_usage := 0 }

/-- A valid 10-percent offer whose discount cap is set to zero (falsy in
Python, hence never applied by the code). -/
def capZero : Payment.Offer :=
  { id := "cap0", type := Payment.OfferType.DISCOUNT, title := "Cap Zero",
    description := "10 percent with a zero cap",
    discount_percentage := some 10, cashback_amount := none,
    bonus_points := none, min_amount := 0, max_discount := some 0,
    valid_from := none, valid_until := none, code := none,
    is_active := true, usage_limit := none, current_usage := 0 }

/-- A valid 10-percent offer with `usage_limit = 0` (falsy in Python, hence
treated as no limit at all). -/
def limitZero : Payment.Offer :=
  { id := "lim0", type := Payment.OfferType.DISCOUNT, title := "Limit Zero",
    description := "10 percent with a zero usage limit",
    discount_percentage := some 10, cashback_amount := none,
    bonus_points := none, min_amount := 0, max_discount := none,
    valid_from := none, valid_until := none, code := none,
    is_active := true, usage_limit := some 0, current_usage := 0 }

/-- A valid uncapped 10-percent offer with minimum amount 10. -/
def tenPct : Payment.Offer :=
  { id := "ten", type := Payment.OfferType.DISCOUNT, title := "Ten",
    description := "10 percent, no cap",
    discount_percentage := some 10, cashback_amount := none,
    bonus_points := none, min_amount := 10, max_discount := none,
    valid_from := none, valid_until := none, code := none,
    is_active := true, usage_limit := none, current_usage := 0 }

/-- A valid 10-percent offer with usage limit 1. -/
def limitOne : Payment.Offer :=
  { id := "lim1", type := Payment.OfferType.DISCOUNT, title := "Limit One",
    description := "10 percent, one use",
    discount_percentage := some 10, cashback_amount := none,
    bonus_points := none, min_amount := 0, max_discount := none,
    valid_from := none, valid_until := none, code := none,
    is_active := true, usage_limit := some 1, current_usage := 0 }

/-- The limit-one offer after one granted application. -/
def limitOneUsed : Payment.Offer :=
  { limitOne with current_usage := 1 }

/-- Gateway configuration used in concrete webhook scenarios. -/
def cfg : Robokassa.RobokassaConfig :=
  { merchant_id := "shop", password1 := "pw1", password2 := "pw2",
    test_mode := false }

/-- A correctly signed webhook payload for order 42 over amount 100,
signed with the inbound secret `password2`. -/
def signedPayload : List (String × String) :=
  [("InvId", "42"), ("Sum", "100.0"),
   ("SignatureValue", Robokassa.generate_signature "shop" 100 "42" "pw2" none),
   ("MerchantLogin", "shop")]

/-- An empty payment processor: no offers, no transactions. -/
def emptyProcessor : Payment.PaymentProcessor :=
  { offer_manager := [], transactions := [], transaction_counter := 0 }

/-- A completed transaction of amount 100, as stored after a processed
payment. -/
def completedTxn : Payment.Transaction :=
  { id := "TXN_20240101_000001", user_id := "u1", amount := 100,
    currency := "RUB", payment_method := Payment.PaymentMethod.CARD,
    status := Payment.PaymentStatus.COMPLETED, created_at := 0,
    updated_at := 0, description := none, order_id := some "42",
    applied_offers := [], total_discount := 0, final_amount := 100,
    sbp_details := [], metadata := [] }

/-- The same transaction still PENDING. -/
def pendingTxn : Payment.Transaction :=
  { completedTxn with status := Payment.PaymentStatus.PENDING }

/-- A processor holding the welcome offer and nothing else. -/
def welcomeProcessor : Payment.PaymentProcessor :=
  { offer_manager := [welcome], transactions := [], transaction_counter := 0 }

/-- A processor holding one COMPLETED and one PENDING transaction. -/
def twoTxnProcessor : Payment.PaymentProcessor :=
  { offer_manager := [],
    transactions := [("TXN_20240101_000001", completedTxn),
                     ("TXN_20240101_000002",
                      { pendingTxn with id := "TXN_20240101_000002" })],
    transaction_counter := 2 }

end Fix

/-!
## Theorems

Helper lemmas first, then one theorem (with witness or counterexample as
required) per claim.
-/

namespace Py

/-- Looking up the key just stored returns the stored value. -/
theorem dictGet_dictSet_self {α : Type} (d : List (String × α)) (k : String)
    (v : α) : dictGet (dictSet d k v) k = some v := by
  induction d with
  | nil => simp [dictSet, dictGet]
  | cons kv rest ih =>
    by_cases h : kv.1 == k
    · simp [dictSet, h, dictGet]
    · simp only [dictSet, h, if_false, Bool.false_eq_true, ite_false]
      simp only [dictGet, List.find?] at ih ⊢
      simp [h, ih]

/-- Storing one key leaves every other key unchanged. -/
theorem dictGet_dictSet_ne {α : Type} (d : List (String × α)) (k k' : String)
    (v : α) (h : k' ≠ k) : dictGet (dictSet d k v) k' = dictGet d k' := by
  have hkk' : (k == k') = false := beq_eq_false_iff_ne.mpr (Ne.symm h)
  induction d with
  | nil => simp [dictSet, dictGet, List.find?, hkk']
  | cons kv rest ih =>
    by_cases hk : kv.1 == k
    · have hkv : kv.1 = k := by simpa using hk
      have hkv2 : (kv.1 == k') = false := by rw [hkv]; exact hkk'
      simp [dictSet, hk, dictGet, List.find?, hkk', hkv2]
    · simp only [dictSet, hk, Bool.false_eq_true, ite_false]
      simp only [dictGet, List.find?] at ih ⊢
      cases hkv2 : (kv.1 == k') <;> simp [hkv2, ih]

/-- A key that is not present reads as `none`. -/
theorem dictGet_eq_none_of_not_has {α : Type} (d : List (String × α))
    (k : String) (h : dictHas d k = false) : dictGet d k = none := by
  simpa [dictHas, Option.isSome_iff_exists] using h

end Py

namespace Robokassa

/-- Verification accepts the signature generated with the inbound secret
`password2` for the same field set. -/
theorem verify_generate_password2 (cfg : RobokassaConfig) (m : String)
    (a : ℚ) (o : String) (e : Option (List (String × String))) :
    verify_signature cfg m a o (generate_signature m a o cfg.password2 e) e
      = true := by
  simp [verify_signature, compare_digest]

/-- Verification accepts the signature generated with the outbound secret
`password1` for the same field set, through the fallback branch. -/
theorem verify_generate_password1 (cfg : RobokassaConfig) (m : String)
    (a : ℚ) (o : String) (e : Option (List (String × String))) :
    verify_signature cfg m a o (generate_signature m a o cfg.password1 e) e
      = true := by
  simp only [verify_signature, compare_digest]
  by_cases h :
      (generate_signature m a o cfg.password1 e ==
        generate_signature m a o cfg.password2 e) = true
  · simp [h]
  · simp [h]

/-- Verification accepts any provided signature whose canonical string under
`password2` coincides with the signed canonical string. -/
theorem verify_of_signature_str_eq (cfg : RobokassaConfig)
    {m m2 : String} {a a2 : ℚ} {o o2 : String}
    {e e2 : Option (List (String × String))}
    (h : signature_str m2 a2 o2 cfg.password2 e2 =
      signature_str m a o cfg.password2 e) :
    verify_signature cfg m2 a2 o2 (generate_signature m a o cfg.password2 e)
      e2 = true := by
  simp [verify_signature, generate_signature, compare_digest, h]

/-- Verification rejects a provided signature matching neither expected
digest. -/
theorem verify_signature_eq_false (cfg : RobokassaConfig)
    {m : String} {a : ℚ} {o : String} {e : Option (List (String × String))}
    {provided : String}
    (h2 : provided ≠ generate_signature m a o cfg.password2 e)
    (h1 : provided ≠ generate_signature m a o cfg.password1 e) :
    verify_signature cfg m a o provided e = false := by
  simp [verify_signature, compare_digest, h1, h2]

end Robokassa

/-- C3 counterexample: mutating the single field `extra_params` of a signed
field set from `{"a": "b:c=d"}` to `{"a": "b", "c": "d"}` leaves
verification succeeding, because the parameters are joined onto the
canonical string with un-escaped `:` and `=` separators and both field sets
produce the very same canonical string. The claim asserts any single-field
change makes verification fail; here it does not. -/
theorem C3_counterexample :
    Robokassa.verify_signature Fix.cfg "shop" 100 "42"
      (Robokassa.generate_signature "shop" 100 "42" "pw2"
        (some [("a", "b:c=d")]))
      (some [("a", "b"), ("c", "d")]) = true
    ∧ (some [("a", "b"), ("c", "d")] : Option (List (String × String)))
        ≠ some [("a", "b:c=d")] := by
  constructor
  · exact Robokassa.verify_of_signature_str_eq Fix.cfg (by decide)
  · decide

/-- C3 (amended): verifying the signature produced by signing a field set
with either configured secret succeeds; a mutated field set is rejected
whenever its canonical strings under both secrets hash differently from the
provided signature; but a mutation that reproduces the same canonical
string (possible because extra parameters are joined with un-escaped `:`
separators, as in the counterexample) still verifies. -/
theorem C3_sign_verify_roundtrip_and_tamper (cfg : Robokassa.RobokassaConfig)
    (m : String) (a : ℚ) (o : String) (e : Option (List (String × String)))
    (m2 : String) (a2 : ℚ) (o2 : String)
    (e2 : Option (List (String × String)))
    (h2 : Robokassa.generate_signature m2 a2 o2 cfg.password2 e2 ≠
      Robokassa.generate_signature m a o cfg.password2 e)
    (h1 : Robokassa.generate_signature m2 a2 o2 cfg.password1 e2 ≠
      Robokassa.generate_signature m a o cfg.password2 e) :
    Robokassa.verify_signature cfg m a o
      (Robokassa.generate_signature m a o cfg.password2 e) e = true
    ∧ Robokassa.verify_signature cfg m a o
      (Robokassa.generate_signature m a o cfg.password1 e) e = true
    ∧ Robokassa.verify_signature cfg m2 a2 o2
      (Robokassa.generate_signature m a o cfg.password2 e) e2 = false := by
  refine ⟨Robokassa.verify_generate_password2 cfg m a o e,
    Robokassa.verify_generate_password1 cfg m a o e, ?_⟩
  exact Robokassa.verify_signature_eq_false cfg
    (fun h => h2 h.symm) (fun h => h1 h.symm)

set_option maxRecDepth 200000 in
/-- Witness for the amended C3 at a concrete field set and its mutation
(order id changed from 42 to 43), with the digest inequalities evaluated. -/
theorem C3_sign_verify_roundtrip_and_tamper_witness :
    (Robokassa.generate_signature "shop" 100 "43" "pw2" none ≠
      Robokassa.generate_signature "shop" 100 "42" "pw2" none)
    ∧ (Robokassa.generate_signature "shop" 100 "43" "pw1" none ≠
      Robokassa.generate_signature "shop" 100 "42" "pw2" none)
    ∧ (Robokassa.verify_signature Fix.cfg "shop" 100 "42"
        (Robokassa.generate_signature "shop" 100 "42" "pw2" none) none = true
      ∧ Robokassa.verify_signature Fix.cfg "shop" 100 "42"
        (Robokassa.generate_signature "shop" 100 "42" "pw1" none) none = true
      ∧ Robokassa.verify_signature Fix.cfg "shop" 100 "43"
        (Robokassa.generate_signature "shop" 100 "42" "pw2" none) none
          = false) :=
  ⟨by decide, by decide,
    C3_sign_verify_roundtrip_and_tamper Fix.cfg "shop" 100 "42" none
      "shop" 100 "43" none (by decide) (by decide)⟩

set_option maxRecDepth 200000 in
/-- C1 counterexample: a correctly signed webhook for order id 42 is
processed with full success although no transaction for that order exists
anywhere — `process_webhook` takes no transaction store at all, resolves no
order id, performs no state transition and has no `UnknownOrder` outcome,
in contradiction with the claimed resolve-and-transition behaviour. -/
theorem C1_counterexample :
    (Robokassa.process_webhook Fix.cfg Fix.signedPayload).success = true
    ∧ (Robokassa.process_webhook Fix.cfg Fix.signedPayload).message =
        "Payment verified successfully" := by
  decide

/-- C1 (amended): handling a webhook only authenticates it (signature with
secret fallback, then merchant id) and echoes the payload fields back as a
success result; it consults no transaction store, so any payload passing
authentication — whatever its order id — yields the same success outcome,
and no outcome of the handler mentions an unknown order. -/
theorem C1_webhook_processing_is_stateless (cfg : Robokassa.RobokassaConfig)
    (d : List (String × String)) (a : ℚ)
    (hsum : Robokassa.webhook_amount d = some a)
    (hsig : Robokassa.verify_signature cfg cfg.merchant_id a
      (Robokassa.webhook_order_id d) (Robokassa.webhook_signature d) none
        = true)
    (hm : Py.dictGet d "MerchantLogin" = some cfg.merchant_id) :
    (Robokassa.process_webhook cfg d).success = true
    ∧ (Robokassa.process_webhook cfg d).message =
        "Payment verified successfully"
    ∧ (Robokassa.process_webhook cfg d).order_id =
        some (Robokassa.webhook_order_id d)
    ∧ ∀ d2 : List (String × String),
        (Robokassa.process_webhook cfg d2).message ∈
          ["Error processing webhook: invalid Sum",
           "Signature verification failed", "Merchant ID mismatch",
           "Payment verified successfully"] := by
  refine ⟨?_, ?_, ?_, ?_⟩
  · simp [Robokassa.process_webhook, hsum, hsig, hm]
  · simp [Robokassa.process_webhook, hsum, hsig, hm]
  · simp [Robokassa.process_webhook, hsum, hsig, hm]
  · intro d2
    cases hw : Robokassa.webhook_amount d2 with
    | none => simp [Robokassa.process_webhook, hw]
    | some a2 =>
      simp only [Robokassa.process_webhook, hw]
      split_ifs <;> simp

set_option maxRecDepth 200000 in
/-- Witness for the amended C1 at the concrete signed payload. -/
theorem C1_webhook_processing_is_stateless_witness :
    Robokassa.webhook_amount Fix.signedPayload = some 100
    ∧ Robokassa.verify_signature Fix.cfg Fix.cfg.merchant_id 100
        (Robokassa.webhook_order_id Fix.signedPayload)
        (Robokassa.webhook_signature Fix.signedPayload) none = true
    ∧ Py.dictGet Fix.signedPayload "MerchantLogin" =
        some Fix.cfg.merchant_id
    ∧ (Robokassa.process_webhook Fix.cfg Fix.signedPayload).success = true :=
  ⟨by decide, by decide, by decide,
    (C1_webhook_processing_is_stateless Fix.cfg Fix.signedPayload 100
      (by decide) (by decide) (by decide)).1⟩

/-- C10: a payload missing `InvId` or `Sum` never hits the required-field
validation (`validate_webhook_request` would reject it, but it is never
invoked): processing proceeds to signature verification with the defaults
`order_id = "None"` and `amount = 0.0`, so the only possible outcomes are
the signature failure, the merchant-id failure, or success. -/
theorem C10_webhook_skips_field_validation (cfg : Robokassa.RobokassaConfig)
    (d : List (String × String))
    (hi : Py.dictHas d "InvId" = false) (hs : Py.dictHas d "Sum" = false) :
    (Robokassa.process_webhook cfg d).order_id = some "None"
    ∧ (Robokassa.process_webhook cfg d).amount = some 0
    ∧ (Robokassa.process_webhook cfg d).message ∈
        ["Signature verification failed", "Merchant ID mismatch",
         "Payment verified successfully"]
    ∧ (Robokassa.validate_webhook_request d).1 = false
    ∧ (Robokassa.validate_webhook_request d).2 =
        "Missing required field: InvId" := by
  have hio : Py.dictGet d "InvId" = none :=
    Py.dictGet_eq_none_of_not_has d "InvId" hi
  have hso : Py.dictGet d "Sum" = none :=
    Py.dictGet_eq_none_of_not_has d "Sum" hs
  have hoid : Robokassa.webhook_order_id d = "None" := by
    simp [Robokassa.webhook_order_id, hio]
  have hamt : Robokassa.webhook_amount d = some 0 := by
    simp [Robokassa.webhook_amount, hso]
  refine ⟨?_, ?_, ?_, ?_, ?_⟩
  · simp only [Robokassa.process_webhook, hamt]
    split_ifs <;> simp [hoid]
  · simp only [Robokassa.process_webhook, hamt]
    split_ifs <;> simp
  · simp only [Robokassa.process_webhook, hamt]
    split_ifs <;> simp
  · simp [Robokassa.validate_webhook_request, List.find?, hi]
  · simp [Robokassa.validate_webhook_request, List.find?, hi]

/-- Witness for C10 at a concrete payload carrying only a merchant id. -/
theorem C10_webhook_skips_field_validation_witness :
    Py.dictHas [("MerchantLogin", "shop")] "InvId" = false
    ∧ Py.dictHas [("MerchantLogin", "shop")] "Sum" = false
    ∧ (Robokassa.process_webhook Fix.cfg
        [("MerchantLogin", "shop")]).order_id = some "None" :=
  ⟨by decide, by decide,
    (C10_webhook_skips_field_validation Fix.cfg [("MerchantLogin", "shop")]
      (by decide) (by decide)).1⟩

namespace Py

/-- The code-point order on character lists is total. -/
theorem lexLe_total (as bs : List Char) :
    lexLe as bs = true ∨ lexLe bs as = true := by
  induction as generalizing bs with
  | nil => left; rfl
  | cons a as ih =>
    cases bs with
    | nil => right; rfl
    | cons b bs =>
      by_cases h1 : a.toNat < b.toNat
      · left; simp [lexLe, h1]
      · by_cases h2 : b.toNat < a.toNat
        · right; simp [lexLe, h2]
        · rcases ih bs with h | h
          · left; simp [lexLe, h1, h2, h]
          · right; simp [lexLe, h1, h2, h]

/-- The code-point order on character lists is transitive. -/
theorem lexLe_trans {as bs cs : List Char} (h1 : lexLe as bs = true)
    (h2 : lexLe bs cs = true) : lexLe as cs = true := by
  induction as generalizing bs cs with
  | nil => rfl
  | cons a as ih =>
    cases bs with
    | nil => simp [lexLe] at h1
    | cons b bs =>
      cases cs with
      | nil => simp [lexLe] at h2
      | cons c cs =>
        simp only [lexLe] at h1 h2 ⊢
        by_cases hab : a.toNat < b.toNat
        · by_cases hbc : b.toNat < c.toNat
          · simp [Nat.lt_trans hab hbc]
          · by_cases hcb : c.toNat < b.toNat
            · simp [hbc, hcb] at h2
            · have hac : a.toNat < c.toNat := by omega
              simp [hac]
        · by_cases hba : b.toNat < a.toNat
          · simp [hab, hba] at h1
          · by_cases hbc : b.toNat < c.toNat
            · have hac : a.toNat < c.toNat := by omega
              simp [hac]
            · by_cases hcb : c.toNat < b.toNat
              · simp [hbc, hcb] at h2
              · have h1b : lexLe as bs = true := by simpa [hab, hba] using h1
                have h2b : lexLe bs cs = true := by simpa [hbc, hcb] using h2
                have hac : ¬ a.toNat < c.toNat := by omega
                have hca : ¬ c.toNat < a.toNat := by omega
                simp [hac, hca, ih h1b h2b]

/-- The string order is total. -/
theorem strLe_total (a b : String) : strLe a b = true ∨ strLe b a = true :=
  lexLe_total a.data b.data

/-- The string order is transitive. -/
theorem strLe_trans {a b c : String} (h1 : strLe a b = true)
    (h2 : strLe b c = true) : strLe a c = true :=
  lexLe_trans h1 h2

/-- Inserting into a list permutes consing onto it. -/
theorem insertByKey_perm (kv : String × String) (l : List (String × String)) :
    (insertByKey kv l).Perm (kv :: l) := by
  induction l with
  | nil => simp [insertByKey]
  | cons x xs ih =>
    by_cases h : strLe kv.1 x.1 = true
    · simp [insertByKey, h]
    · simp only [insertByKey, h, Bool.false_eq_true, ite_false]
      exact (ih.cons x).trans (List.Perm.swap kv x xs)

/-- Sorting by key permutes the input list. -/
theorem sortByKey_perm (l : List (String × String)) :
    (sortByKey l).Perm l := by
  induction l with
  | nil => rfl
  | cons x xs ih => exact (insertByKey_perm x (sortByKey xs)).trans (ih.cons x)

/-- Inserting into a key-sorted list keeps it key-sorted. -/
theorem insertByKey_pairwise (kv : String × String)
    {l : List (String × String)} (h : l.Pairwise keyLe) :
    (insertByKey kv l).Pairwise keyLe := by
  induction l with
  | nil => simp [insertByKey, keyLe]
  | cons x xs ih =>
    rw [List.pairwise_cons] at h
    obtain ⟨hx, hxs⟩ := h
    by_cases hle : strLe kv.1 x.1 = true
    · simp only [insertByKey, hle, ite_true]
      rw [List.pairwise_cons]
      refine ⟨?_, ?_⟩
      · intro y hy
        rcases List.mem_cons.mp hy with rfl | hy2
        · exact hle
        · exact strLe_trans hle (hx y hy2)
      · rw [List.pairwise_cons]
        exact ⟨hx, hxs⟩
    · simp only [insertByKey, hle, Bool.false_eq_true, ite_false]
      rw [List.pairwise_cons]
      refine ⟨?_, ih hxs⟩
      intro y hy
      have hmem : y ∈ kv :: xs := (insertByKey_perm kv xs).mem_iff.mp hy
      rcases List.mem_cons.mp hmem with rfl | hy2
      · rcases strLe_total y.1 x.1 with ht | ht
        · exact absurd ht hle
        · exact ht
      · exact hx y hy2

/-- The sorted extra-parameter list is key-sorted. -/
theorem sortByKey_pairwise (l : List (String × String)) :
    (sortByKey l).Pairwise keyLe := by
  induction l with
  | nil => exact List.Pairwise.nil
  | cons x xs ih => exact insertByKey_pairwise x ih

/-- Folding key stores whose keys all differ from `k` does not change what
`k` reads as. -/
theorem dictGet_foldl_dictSet_ne {α : Type} (e : List (String × α))
    (k : String) (h : ∀ kv ∈ e, kv.1 ≠ k) :
    ∀ d : List (String × α),
      dictGet (e.foldl (fun d kv => dictSet d kv.1 kv.2) d) k = dictGet d k := by
  induction e with
  | nil => intro d; rfl
  | cons kv rest ih =>
    intro d
    have hk : kv.1 ≠ k := h kv (List.mem_cons_self kv rest)
    have hrest : ∀ kv2 ∈ rest, kv2.1 ≠ k :=
      fun kv2 hm => h kv2 (List.mem_cons_of_mem kv hm)
    simp only [List.foldl_cons]
    rw [ih hrest, dictGet_dictSet_ne _ _ _ _ (Ne.symm hk)]

/-- Storing an absent key appends it at the end of the dictionary. -/
theorem dictSet_eq_append_of_not_has {α : Type} (d : List (String × α))
    (k : String) (v : α) (h : dictHas d k = false) :
    dictSet d k v = d ++ [(k, v)] := by
  induction d with
  | nil => rfl
  | cons kv rest ih =>
    simp only [dictHas, dictGet, List.find?] at h
    cases hk : (kv.1 == k) with
    | true => simp [hk] at h
    | false =>
      simp only [hk] at h
      simp only [dictSet, hk, Bool.false_eq_true, ite_false, List.cons_append,
        List.cons.injEq, true_and]
      exact ih (by simpa [dictHas, dictGet] using h)

end Py

/-- C4 counterexample: for the amount `10.125` the canonical string hashed
by signing formats the amount as `str(amount) = "10.125"` — not a 2-decimal
string — while the outbound `Sum` field is `str(round(amount, 2)) =
"10.12"`, so the signed amount component differs from the `Sum` field that
is sent. -/
theorem C4_counterexample :
    Robokassa.signature_str "shop" (81 / 8) "42" "pw1" none =
      "shop:10.125:42:pw1"
    ∧ Spec.isTwoDecimalStr "10.125" = false
    ∧ Py.dictGet
        (Robokassa.create_payment_url_params Fix.cfg (81 / 8) "42" "d" "" "" [])
        "Sum" = some "10.12"
    ∧ ("10.125" : String) ≠ "10.12" := by
  refine ⟨by decide, by decide, ?_, by decide⟩
  decide

/-- C4 (amended): the canonical string is the merchant id, then
`str(amount)` — the shortest float rendering, not a 2-decimal formatting —
then the order id, then one `key=value` segment per extra parameter with
keys in ascending sorted order, then the secret, joined with `:`; the
outbound `Sum` field is `str(round(amount, 2))` and the signature is stored
last in the request; the signed amount component equals `Sum` exactly when
`round(amount, 2)` leaves the amount unchanged. -/
theorem C4_canonical_string_and_sum_field (m : String) (a : ℚ)
    (o pw : String) (cfg : Robokassa.RobokassaConfig)
    (oid desc email phone : String) (e : List (String × String))
    (hsum : ∀ kv ∈ e, kv.1 ≠ "Sum")
    (hsv : ∀ kv ∈ e, kv.1 ≠ "SignatureValue") :
    Robokassa.signature_str m a o pw none =
      m ++ ":" ++ Py.pyFloatStr a ++ ":" ++ o ++ ":" ++ pw
    ∧ Robokassa.signature_str m a o pw (some e) =
        String.intercalate ":" ([m, Py.pyFloatStr a, o] ++
          (Py.sortByKey e).map (fun kv => kv.1 ++ "=" ++ kv.2) ++ [pw])
    ∧ (Py.sortByKey e).Pairwise Py.keyLe
    ∧ (Py.sortByKey e).Perm e
    ∧ Py.dictGet
        (Robokassa.create_payment_url_params cfg a oid desc email phone e)
        "Sum" = some (Py.pyFloatStr (Py.pyRound2 a))
    ∧ (Robokassa.create_payment_url_params cfg a oid desc email phone
        e).getLast? =
        some ("SignatureValue", Robokassa.generate_signature cfg.merchant_id
          a oid cfg.password1 (if e = [] then none else some e))
    ∧ (Py.pyRound2 a = a →
        Robokassa.signature_str m a o pw none =
          m ++ ":" ++ Py.pyFloatStr (Py.pyRound2 a) ++ ":" ++ o ++ ":" ++ pw)
    := by
  have base : ∀ d0 : List (String × String),
      d0 = (let p1 := [("MerchantLogin", cfg.merchant_id),
              ("Sum", Py.pyFloatStr (Py.pyRound2 a)), ("InvId", oid),
              ("Description", desc),
              ("IsTest", if cfg.test_mode then "1" else "0")]
            let p2 := if email ≠ "" then p1 ++ [("Email", email)] else p1
            if phone ≠ "" then p2 ++ [("Phone", phone)] else p2) →
      Py.dictGet d0 "Sum" = some (Py.pyFloatStr (Py.pyRound2 a))
      ∧ Py.dictGet d0 "SignatureValue" = none := by
    intro d0 hd0
    subst hd0
    constructor <;>
      (split_ifs <;> simp [Py.dictGet, List.find?])
  refine ⟨?_, ?_, Py.sortByKey_pairwise e, Py.sortByKey_perm e, ?_, ?_, ?_⟩
  · simp [Robokassa.signature_str, String.intercalate, String.intercalate.go]
  · simp [Robokassa.signature_str]
  · simp only [Robokassa.create_payment_url_params]
    rw [Py.dictGet_dictSet_ne _ _ _ _ (by decide),
      Py.dictGet_foldl_dictSet_ne e "Sum" hsum]
    exact (base _ rfl).1
  · simp only [Robokassa.create_payment_url_params]
    rw [Py.dictSet_eq_append_of_not_has _ _ _ ?_, List.getLast?_concat]
    have hnone := Py.dictGet_foldl_dictSet_ne e "SignatureValue" hsv
      ((let p1 := [("MerchantLogin", cfg.merchant_id),
          ("Sum", Py.pyFloatStr (Py.pyRound2 a)), ("InvId", oid),
          ("Description", desc),
          ("IsTest", if cfg.test_mode then "1" else "0")]
        let p2 := if email ≠ "" then p1 ++ [("Email", email)] else p1
        if phone ≠ "" then p2 ++ [("Phone", phone)] else p2))
    simp only [Py.dictHas]
    rw [hnone, (base _ rfl).2]
    rfl
  · intro h
    rw [h]
    simp [Robokassa.signature_str, String.intercalate, String.intercalate.go]

/-- Witness for the amended C4 at a concrete field set with one extra
parameter. -/
theorem C4_canonical_string_and_sum_field_witness :
    (∀ kv ∈ [("shp", "1")], kv.1 ≠ "Sum")
    ∧ (∀ kv ∈ [("shp", "1")], kv.1 ≠ "SignatureValue")
    ∧ Robokassa.signature_str "shop" (81 / 8) "42" "pw1" none =
        "shop" ++ ":" ++ Py.pyFloatStr (81 / 8) ++ ":" ++ "42" ++ ":" ++ "pw1" :=
  ⟨by decide, by decide,
    (C4_canonical_string_and_sum_field "shop" (81 / 8) "42" "pw1" Fix.cfg
      "42" "d" "" "" [("shp", "1")] (by decide) (by decide)).1⟩

namespace Py

/-- Python `min` is bounded by its first argument. -/
theorem pyMin_le_left (a b : ℚ) : pyMin a b ≤ a := by
  unfold pyMin
  split_ifs with h
  · linarith
  · linarith

/-- Python `min` is bounded by its second argument. -/
theorem pyMin_le_right (a b : ℚ) : pyMin a b ≤ b := by
  unfold pyMin
  split_ifs with h
  · linarith
  · linarith

end Py

/-- C5 counterexample: a valid 10-percent offer with its cap set to zero is
clamped to nothing by the code — `Decimal("0")` is falsy, so the
`max_discount` branch is skipped and the full 10 discount is granted on
amount 100 — while the claimed rule clamps the discount to the cap 0. -/
theorem C5_counterexample :
    Payment.Offer.calculate_discount Fix.capZero 0 100 = 10
    ∧ Spec.specDiscount Fix.capZero 100 = 0
    ∧ Fix.capZero.max_discount = some 0
    ∧ (10 : ℚ) ≠ 0 := by
  refine ⟨by decide, by decide, by decide, by decide⟩

/-- C5 (amended): for a currently valid offer with a non-negative minimum
amount whose cap, when present, is positive (a zero cap is falsy and acts
as no cap), the computed discount follows the claimed rule exactly: zero
below the minimum amount, `amount * percentage / 100` clamped to the cap
for percentage offers, `min(fixed, amount)` for cashback offers, zero
otherwise; and the concrete 10-percent-up-to-50 scenario yields 50 on
1000, 10 on 100 and 0 on 5. -/
theorem C5_discount_rule (o : Payment.Offer) (now : ℤ) (amount : ℚ)
    (hv : o.is_valid now = true) (hmin : 0 ≤ o.min_amount)
    (hcap : ∀ c : ℚ, o.max_discount = some c → 0 < c) :
    Payment.Offer.calculate_discount o now amount = Spec.specDiscount o amount
    ∧ Payment.Offer.calculate_discount Fix.welcome 0 1000 = 50
    ∧ Payment.Offer.calculate_discount Fix.welcome 0 100 = 10
    ∧ Payment.Offer.calculate_discount Fix.welcome 0 5 = 0 := by
  refine ⟨?_, by decide, by decide, by decide⟩
  unfold Payment.Offer.calculate_discount Spec.specDiscount
  by_cases hlt : amount < o.min_amount
  · simp [hv, hlt]
  · have hmin0 : 0 ≤ amount := by linarith
    rcases htype : o.type with _ | _ | _ | _ | _
    · -- DISCOUNT
      rcases hp : o.discount_percentage with _ | p
      · rcases hcapv : o.max_discount with _ | c
        · simp [hv, hlt, htype, Payment.truthyQ, hp, hcapv, Py.pyMin]
        · have hc := hcap c hcapv
          simp only [hv, hlt, htype, Payment.truthyQ, hp, hcapv, Py.pyMin]
          simp
          rw [if_neg (by linarith)]
      · by_cases hp0 : p = 0
        · rcases hcapv : o.max_discount with _ | c
          · simp [hv, hlt, htype, Payment.truthyQ, hp, hp0, hcapv, Py.pyMin]
          · have hc := hcap c hcapv
            simp only [hv, hlt, htype, Payment.truthyQ, hp, hp0, hcapv,
              Py.pyMin]
            simp [hp0]
            rw [if_neg (by linarith)]
        · rcases hcapv : o.max_discount with _ | c
          · simp [hv, hlt, htype, Payment.truthyQ, hp, hp0, hcapv]
          · have hc := hcap c hcapv
            have hcne : c ≠ 0 := by linarith
            simp [hv, hlt, htype, Payment.truthyQ, hp, hp0, hcapv, hcne]
    · -- CASHBACK
      rcases hcb : o.cashback_amount with _ | c
      · simp [hv, hlt, htype, Payment.truthyQ, hcb, Py.pyMin]
        rw [if_neg (by linarith)]
      · by_cases hc0 : c = 0
        · simp [hv, hlt, htype, Payment.truthyQ, hcb, hc0, Py.pyMin]
          rw [if_neg (by linarith)]
        · simp [hv, hlt, htype, Payment.truthyQ, hcb, hc0]
    · simp [hv, hlt, htype]
    · simp [hv, hlt, htype]
    · simp [hv, hlt, htype]

/-- Witness for the amended C5 at the welcome offer and amount 1000. -/
theorem C5_discount_rule_witness :
    Fix.welcome.is_valid 0 = true
    ∧ (0 : ℚ) ≤ Fix.welcome.min_amount
    ∧ (∀ c : ℚ, Fix.welcome.max_discount = some c → 0 < c)
    ∧ Payment.Offer.calculate_discount Fix.welcome 0 1000 =
        Spec.specDiscount Fix.welcome 1000 := by
  have hcap : ∀ c : ℚ, Fix.welcome.max_discount = some c → 0 < c := by
    intro c hc
    have h50 : Fix.welcome.max_discount = some (50 : ℚ) := rfl
    rw [h50] at hc
    rw [← Option.some.inj hc]
    decide
  exact ⟨by decide, by decide, hcap,
    (C5_discount_rule Fix.welcome 0 1000 (by decide) (by decide) hcap).1⟩

/-- C9 counterexample: the discount computed for a 10-percent offer on the
exact decimal amount 10.05 is 1.005, carrying three decimal places — the
code performs no rounding to the 2-decimal minor unit, in particular not
the claimed round-half-up (which would give 1.01). -/
theorem C9_counterexample :
    Payment.Offer.calculate_discount Fix.tenPct 0 (201 / 20) = 201 / 200
    ∧ Spec.roundHalfUp2 (201 / 200) = 101 / 100
    ∧ (201 / 200 : ℚ) ≠ 101 / 100 := by
  refine ⟨by decide, by decide, by decide⟩

/-- C9 (amended): discount arithmetic is carried out exactly on `Decimal`
values (modelled as exact rationals) and the result is kept at full
precision: an uncapped percentage discount is exactly
`amount * percentage / 100`, with no rounding of any kind applied. -/
theorem C9_discount_arithmetic_exact (o : Payment.Offer) (now : ℤ)
    (amount p : ℚ) (hv : o.is_valid now = true)
    (htype : o.type = Payment.OfferType.DISCOUNT)
    (hp : o.discount_percentage = some p) (hp0 : p ≠ 0)
    (hmin : ¬ amount < o.min_amount) (hcap : o.max_discount = none) :
    Payment.Offer.calculate_discount o now amount = amount * (p / 100) := by
  simp [Payment.Offer.calculate_discount, hv, htype, hp, hp0, hmin, hcap,
    Payment.truthyQ]

/-- Witness for the amended C9 at the uncapped 10-percent offer and the
amount 10.05, where the exact unrounded discount is 1.005. -/
theorem C9_discount_arithmetic_exact_witness :
    Fix.tenPct.is_valid 0 = true
    ∧ Fix.tenPct.discount_percentage = some 10
    ∧ (¬ (201 / 20 : ℚ) < Fix.tenPct.min_amount)
    ∧ Payment.Offer.calculate_discount Fix.tenPct 0 (201 / 20) =
        (201 / 20 : ℚ) * (10 / 100) :=
  ⟨by decide, by decide, by decide,
    C9_discount_arithmetic_exact Fix.tenPct 0 (201 / 20) 10 (by decide)
      (by decide) (by decide) (by decide) (by decide) (by decide)⟩

/-- Under a well-formed percentage, a single discount never exceeds a
non-negative base amount. -/
theorem calculate_discount_le (o : Payment.Offer) (now : ℤ) (r : ℚ)
    (h0 : 0 ≤ r) (hp : Spec.percOk o) :
    Payment.Offer.calculate_discount o now r ≤ r := by
  unfold Payment.Offer.calculate_discount
  split_ifs with h1 h2 h3 h4 h5
  · exact h0
  · exact h0
  · rcases hper : o.discount_percentage with _ | p
    · simp [Payment.truthyQ, hper] at h3
    · obtain ⟨hp0, hp100⟩ := hp p hper
      have hd : r * (p / 100) ≤ r := by nlinarith
      simp only []
      exact le_trans (Py.pyMin_le_left _ _) hd
  · rcases hper : o.discount_percentage with _ | p
    · simp [Payment.truthyQ, hper] at h3
    · obtain ⟨hp0, hp100⟩ := hp p hper
      simp only []
      nlinarith
  · exact Py.pyMin_le_right _ _
  · exact h0

/-- The total discount accumulated by the application loop stays between 0
and the original amount, for a catalog of well-formed percentages. -/
theorem apply_offers_loop_total_bounds (now : ℤ) (amount : ℚ) :
    ∀ (ids : List String) (offers : List Payment.Offer) (total : ℚ)
      (acc : List Payment.PaymentOffer),
      (∀ o ∈ offers, Spec.percOk o) → 0 ≤ total → total ≤ amount →
      0 ≤ (Payment.apply_offers_loop now amount ids offers total acc).1
      ∧ (Payment.apply_offers_loop now amount ids offers total acc).1 ≤
          amount := by
  intro ids
  induction ids with
  | nil =>
    intro offers total acc hperc h0 hle
    simpa [Payment.apply_offers_loop] using ⟨h0, hle⟩
  | cons i rest ih =>
    intro offers total acc hperc h0 hle
    simp only [Payment.apply_offers_loop]
    cases hfind : Payment.findOffer offers i with
    | none => exact ih offers total acc hperc h0 hle
    | some o =>
      have homem : o ∈ offers := List.mem_of_find?_eq_some hfind
      by_cases hv : o.is_valid now = true
      · simp only [hv, ite_true]
        by_cases hpos : 0 < o.calculate_discount now (amount - total)
        · simp only [hpos, ite_true]
          have hdle : o.calculate_discount now (amount - total) ≤
              amount - total :=
            calculate_discount_le o now (amount - total) (by linarith)
              (hperc o homem)
          apply ih
          · intro x hx
            rcases List.mem_map.mp hx with ⟨y, hy, rfl⟩
            by_cases hid : y.id == ({ o with
                current_usage := o.current_usage + 1 } : Payment.Offer).id
            · simp only [hid, ite_true]
              intro q hq
              exact hperc o homem q hq
            · simp only [hid, Bool.false_eq_true, ite_false]
              exact hperc y hy
          · linarith
          · linarith
        · simp only [hpos, ite_false]
          exact ih offers total acc hperc h0 hle
      · simp only [hv, Bool.false_eq_true, ite_false]
        exact ih offers total acc hperc h0 hle

/-- The total discount returned by `apply_offers` stays between 0 and the
amount. -/
theorem apply_offers_total_bounds (offers : List Payment.Offer) (now : ℤ)
    (amount : ℚ) (offer_ids : Option (List String))
    (hperc : ∀ o ∈ offers, Spec.percOk o) (hamt : 0 ≤ amount) :
    0 ≤ (Payment.apply_offers offers now amount offer_ids).1
    ∧ (Payment.apply_offers offers now amount offer_ids).1 ≤ amount := by
  unfold Payment.apply_offers
  exact apply_offers_loop_total_bounds now amount _ offers 0 [] hperc
    le_rfl hamt

/-- C2 counterexample: creating a transaction for the negative amount -10
(nothing validates the amount) stores `final_amount = -10 < 0`, violating
the claimed invariant `final_amount ≥ 0` even though the offer catalog is
empty, so every applied offer trivially has a percentage in `[0, 100]`. -/
theorem C2_counterexample :
    (Payment.create_transaction Fix.emptyProcessor 0 "20240101" "u" (-10)
      "RUB" Payment.PaymentMethod.SBP none none none []).1.final_amount < 0
    ∧ (∀ o ∈ Fix.emptyProcessor.offer_manager, Spec.percOk o) := by
  constructor
  · decide
  · intro o ho
    cases ho

/-- C2 (amended): for every transaction created from a non-negative amount
(with every catalog offer percentage in `[0, 100]`), the stored record
satisfies `final_amount = amount - total_discount`, `final_amount ≥ 0` and
`total_discount ≤ amount`. -/
theorem C2_create_transaction_invariants (p : Payment.PaymentProcessor)
    (now : ℤ) (date_str user_id : String) (amount : ℚ) (currency : String)
    (method : Payment.PaymentMethod) (description order_id : Option String)
    (offer_ids : Option (List String)) (sbp : List (String × String))
    (hamt : 0 ≤ amount) (hperc : ∀ o ∈ p.offer_manager, Spec.percOk o) :
    (Payment.create_transaction p now date_str user_id amount currency
        method description order_id offer_ids sbp).1.final_amount =
      (Payment.create_transaction p now date_str user_id amount currency
        method description order_id offer_ids sbp).1.amount -
      (Payment.create_transaction p now date_str user_id amount currency
        method description order_id offer_ids sbp).1.total_discount
    ∧ 0 ≤ (Payment.create_transaction p now date_str user_id amount currency
        method description order_id offer_ids sbp).1.final_amount
    ∧ (Payment.create_transaction p now date_str user_id amount currency
        method description order_id offer_ids sbp).1.total_discount ≤
      (Payment.create_transaction p now date_str user_id amount currency
        method description order_id offer_ids sbp).1.amount := by
  obtain ⟨hb0, hba⟩ := apply_offers_total_bounds p.offer_manager now amount
    offer_ids hperc hamt
  have hfin : (Payment.create_transaction p now date_str user_id amount
      currency method description order_id offer_ids sbp).1.final_amount =
      amount - (Payment.apply_offers p.offer_manager now amount offer_ids).1 :=
    rfl
  have htot : (Payment.create_transaction p now date_str user_id amount
      currency method description order_id offer_ids sbp).1.total_discount =
      (Payment.apply_offers p.offer_manager now amount offer_ids).1 := rfl
  have hamt2 : (Payment.create_transaction p now date_str user_id amount
      currency method description order_id offer_ids sbp).1.amount =
      amount := rfl
  refine ⟨?_, ?_, ?_⟩
  · rw [hfin, htot, hamt2]
  · rw [hfin]
    linarith
  · rw [htot, hamt2]
    exact hba

/-- Witness for the amended C2 at a one-offer catalog and amount 100. -/
theorem C2_create_transaction_invariants_witness :
    (0 : ℚ) ≤ 100
    ∧ (∀ o ∈ Fix.welcomeProcessor.offer_manager, Spec.percOk o)
    ∧ 0 ≤ (Payment.create_transaction Fix.welcomeProcessor 0 "20240101" "u"
        100 "RUB" Payment.PaymentMethod.SBP none none none
        []).1.final_amount := by
  have hperc : ∀ o ∈ Fix.welcomeProcessor.offer_manager, Spec.percOk o := by
    intro o ho
    rcases List.mem_singleton.mp ho with rfl
    intro q hq
    have h10 : Fix.welcome.discount_percentage = some (10 : ℚ) := rfl
    rw [h10] at hq
    rw [← Option.some.inj hq]
    constructor <;> decide
  exact ⟨by decide, hperc,
    (C2_create_transaction_invariants Fix.welcomeProcessor 0 "20240101" "u"
      100 "RUB" Payment.PaymentMethod.SBP none none none [] (by decide)
      hperc).2.1⟩

/-- The application loop is the sequential-stacking loop: the running total
of the code loop corresponds to the remaining amount of the spec loop
through `remaining = amount - total`. -/
theorem apply_offers_loop_eq_stack (now : ℤ) (amount : ℚ) :
    ∀ (ids : List String) (offers : List Payment.Offer) (total : ℚ)
      (acc : List Payment.PaymentOffer),
      Payment.apply_offers_loop now amount ids offers total acc =
        (amount - (Spec.applyStackLoop now ids offers (amount - total) acc).1,
         (Spec.applyStackLoop now ids offers (amount - total) acc).2) := by
  intro ids
  induction ids with
  | nil =>
    intro offers total acc
    simp [Payment.apply_offers_loop, Spec.applyStackLoop]
  | cons i rest ih =>
    intro offers total acc
    simp only [Payment.apply_offers_loop, Spec.applyStackLoop]
    cases hfind : Payment.findOffer offers i with
    | none => exact ih offers total acc
    | some o =>
      by_cases hv : o.is_valid now = true
      · simp only [hv, ite_true]
        by_cases hpos : 0 < o.calculate_discount now (amount - total)
        · simp only [hpos, ite_true]
          have harith : amount -
              (total + o.calculate_discount now (amount - total)) =
              amount - total - o.calculate_discount now (amount - total) := by
            ring
          rw [ih, harith]
        · simp only [hpos, ite_false]
          exact ih offers total acc
      · simp only [hv, Bool.false_eq_true, ite_false]
        exact ih offers total acc

/-- The loop total equals the initial total plus the discounts of the newly
appended entries. -/
theorem apply_offers_loop_sum (now : ℤ) (amount : ℚ) :
    ∀ (ids : List String) (offers : List Payment.Offer) (total : ℚ)
      (acc : List Payment.PaymentOffer),
      ∃ extra : List Payment.PaymentOffer,
        (Payment.apply_offers_loop now amount ids offers total acc).2.1 =
          acc ++ extra
        ∧ (Payment.apply_offers_loop now amount ids offers total acc).1 =
            total + (extra.map (fun e => e.applied_discount)).sum := by
  intro ids
  induction ids with
  | nil =>
    intro offers total acc
    exact ⟨[], by simp [Payment.apply_offers_loop],
      by simp [Payment.apply_offers_loop]⟩
  | cons i rest ih =>
    intro offers total acc
    simp only [Payment.apply_offers_loop]
    cases hfind : Payment.findOffer offers i with
    | none => exact ih offers total acc
    | some o =>
      by_cases hv : o.is_valid now = true
      · simp only [hv, ite_true]
        by_cases hpos : 0 < o.calculate_discount now (amount - total)
        · simp only [hpos, ite_true]
          obtain ⟨extra, h1, h2⟩ :=
            ih (Payment.updateOffer offers
                  { o with current_usage := o.current_usage + 1 })
              (total + o.calculate_discount now (amount - total))
              (acc ++
                [{ offer := { o with current_usage := o.current_usage + 1 },
                   applied_discount :=
                     o.calculate_discount now (amount - total),
                   points_earned :=
                     match o.bonus_points with
                     | some b => b
                     | none => 0 }])
          refine ⟨{ offer := { o with current_usage := o.current_usage + 1 },
                    applied_discount :=
                      o.calculate_discount now (amount - total),
                    points_earned :=
                      match o.bonus_points with
                      | some b => b
                      | none => 0 } :: extra, ?_, ?_⟩
          · rw [h1, List.append_assoc]
            rfl
          · rw [h2]
            simp only [List.map_cons, List.sum_cons]
            ring
        · simp only [hpos, ite_false]
          exact ih offers total acc
      · simp only [hv, Bool.false_eq_true, ite_false]
        exact ih offers total acc

/-- The total discount returned by `apply_offers` is the sum of the applied
entry discounts. -/
theorem apply_offers_total_eq_sum (offers : List Payment.Offer) (now : ℤ)
    (amount : ℚ) (offer_ids : Option (List String)) :
    (Payment.apply_offers offers now amount offer_ids).1 =
      (((Payment.apply_offers offers now amount offer_ids).2.1).map
        (fun e => e.applied_discount)).sum := by
  unfold Payment.apply_offers
  obtain ⟨extra, h1, h2⟩ := apply_offers_loop_sum now amount
    (match offer_ids with
     | some l =>
       if l = [] then
         (Payment.get_available_offers offers now amount).map (fun o => o.id)
       else l.filter (fun i => (Payment.findOffer offers i).isSome)
     | none =>
       (Payment.get_available_offers offers now amount).map (fun o => o.id))
    offers 0 []
  rw [h1, h2]
  simp

/-- C6: offer application is exactly sequential stacking — the discount
of each offer is computed against the amount remaining after the previously
applied offers (with the minimum-amount qualification checked against that
same remaining amount), an unknown id inside an explicit id list is
silently dropped with no error and no effect on the rest, and the call
returns the total discount (the sum of the entry discounts) together with
the ordered applied entries. -/
theorem C6_apply_offers_sequential_stacking (offers : List Payment.Offer)
    (now : ℤ) (amount : ℚ) (offer_ids : Option (List String))
    (l1 l2 : List String) (bad : String)
    (hbad : Payment.findOffer offers bad = none) (hne : l1 ++ l2 ≠ []) :
    Payment.apply_offers offers now amount offer_ids =
      Spec.applyStack offers now amount offer_ids
    ∧ (Payment.apply_offers offers now amount offer_ids).1 =
        (((Payment.apply_offers offers now amount offer_ids).2.1).map
          (fun e => e.applied_discount)).sum
    ∧ Payment.apply_offers offers now amount (some (l1 ++ bad :: l2)) =
        Payment.apply_offers offers now amount (some (l1 ++ l2)) := by
  refine ⟨?_, apply_offers_total_eq_sum offers now amount offer_ids, ?_⟩
  · unfold Payment.apply_offers Spec.applyStack
    rw [apply_offers_loop_eq_stack]
    simp
  · unfold Payment.apply_offers
    have hne1 : (l1 ++ bad :: l2 : List String) ≠ [] := by simp
    simp only [hne1, hne, ite_false, if_false]
    congr 1
    simp [List.filter_append, List.filter_cons, hbad]

/-- Witness for C6 at a one-offer catalog, with the unknown id `nope`
dropped from the explicit list. -/
theorem C6_apply_offers_sequential_stacking_witness :
    Payment.findOffer [Fix.welcome] "nope" = none
    ∧ (["offer_001"] ++ [] : List String) ≠ []
    ∧ Payment.apply_offers [Fix.welcome] 0 100 (some ["offer_001"]) =
        Spec.applyStack [Fix.welcome] 0 100 (some ["offer_001"]) :=
  ⟨by decide, by decide,
    (C6_apply_offers_sequential_stacking [Fix.welcome] 0 100
      (some ["offer_001"]) ["offer_001"] [] "nope" (by decide) (by decide)).1⟩

/-- C7: a refund succeeds exactly on a COMPLETED transaction, moving it to
REFUNDED with the reason recorded in the metadata; a refund attempted in
any other state — in particular PENDING — fails with the state named in the
message and leaves the processor, hence the stored record, completely
unchanged; and payment processing only proceeds from PENDING, so an
already-COMPLETED transaction cannot be completed again. -/
theorem C7_refund_and_process_guards (p : Payment.PaymentProcessor)
    (now : ℤ) (payment_ref tid reason : String) (t : Payment.Transaction)
    (h : Payment.getTransaction p tid = some t) :
    ((Payment.refund_transaction p now tid reason).1.1 = true ↔
      t.status = Payment.PaymentStatus.COMPLETED)
    ∧ (t.status ≠ Payment.PaymentStatus.COMPLETED →
        Payment.refund_transaction p now tid reason =
          ((false, "Cannot refund transaction in " ++ t.status.value ++
            " state"), p))
    ∧ (t.status = Payment.PaymentStatus.COMPLETED →
        (Payment.refund_transaction p now tid reason).1 =
          (true, "Refund processed successfully")
        ∧ Payment.getTransaction
            (Payment.refund_transaction p now tid reason).2 tid =
          some { t with
                 status := Payment.PaymentStatus.REFUNDED,
                 updated_at := now,
                 metadata := Py.dictSet
                   (Py.dictSet t.metadata "refund_reason" reason)
                   "refunded_at" (toString now) }
        ∧ Py.dictGet (Py.dictSet (Py.dictSet t.metadata "refund_reason"
            reason) "refunded_at" (toString now)) "refund_reason" =
          some reason)
    ∧ (t.status ≠ Payment.PaymentStatus.PENDING →
        Payment.process_payment p now payment_ref tid =
          ((false, "Transaction is " ++ t.status.value, none), p)) := by
  refine ⟨?_, ?_, ?_, ?_⟩
  · by_cases hc : t.status = Payment.PaymentStatus.COMPLETED
    · simp [Payment.refund_transaction, h, hc]
    · simp [Payment.refund_transaction, h, hc]
  · intro hc
    simp [Payment.refund_transaction, h, hc]
  · intro hc
    refine ⟨?_, ?_, ?_⟩
    · simp [Payment.refund_transaction, h, hc]
    · simp only [Payment.refund_transaction, h, hc, ne_eq,
        not_true_eq_false, ite_false, if_false]
      simp [Payment.getTransaction, Payment.setTransaction,
        Py.dictGet_dictSet_self]
    · rw [Py.dictGet_dictSet_ne _ _ _ _ (by decide),
        Py.dictGet_dictSet_self]
  · intro hp2
    simp [Payment.process_payment, h, hp2]

/-- Witness for C7 at a processor holding one COMPLETED and one PENDING
transaction, applied at the COMPLETED one. -/
theorem C7_refund_and_process_guards_witness :
    Payment.getTransaction Fix.twoTxnProcessor "TXN_20240101_000001" =
      some Fix.completedTxn
    ∧ ((Payment.refund_transaction Fix.twoTxnProcessor 5
        "TXN_20240101_000001" "customer request").1.1 = true ↔
      Fix.completedTxn.status = Payment.PaymentStatus.COMPLETED) :=
  ⟨by decide,
    (C7_refund_and_process_guards Fix.twoTxnProcessor 5 "ref"
      "TXN_20240101_000001" "customer request" Fix.completedTxn
      (by decide)).1⟩

/-- The offer returned by a lookup carries the looked-up id. -/
theorem findOffer_id {offers : List Payment.Offer} {i : String}
    {o : Payment.Offer} (h : Payment.findOffer offers i = some o) :
    o.id = i := by
  have := List.find?_some h
  simpa using this

/-- An offer whose usage has reached a positive limit is invalid. -/
theorem is_valid_false_of_reached {o : Payment.Offer} {N : ℤ} (now : ℤ)
    (hN : o.usage_limit = some N) (h1 : 1 ≤ N)
    (hreach : N ≤ o.current_usage) : o.is_valid now = false := by
  unfold Payment.Offer.is_valid
  split_ifs with hA hB hC hD
  · rfl
  · rfl
  · rfl
  · rfl
  · exfalso
    apply hD
    rw [hN]
    simp only [Bool.and_eq_true, bne_iff_ne, ne_eq, decide_eq_true_eq]
    exact ⟨by omega, hreach⟩

/-- A valid offer with a positive usage limit has usage strictly below it. -/
theorem is_valid_usage_lt {o : Payment.Offer} {now N : ℤ}
    (hv : o.is_valid now = true) (hN : o.usage_limit = some N)
    (h1 : 1 ≤ N) : o.current_usage < N := by
  by_contra hge
  push_neg at hge
  rw [is_valid_false_of_reached now hN h1 hge] at hv
  exact Bool.false_ne_true hv

/-- Mutating an offer with a different id does not change what a lookup
finds. -/
theorem findOffer_updateOffer_ne (offers : List Payment.Offer)
    (b : Payment.Offer) (i : String) (h : b.id ≠ i) :
    Payment.findOffer (Payment.updateOffer offers b) i =
      Payment.findOffer offers i := by
  have hbi : (b.id == i) = false := beq_eq_false_iff_ne.mpr h
  induction offers with
  | nil => rfl
  | cons x xs ih =>
    simp only [Payment.updateOffer, List.map_cons]
    by_cases hx : x.id == b.id
    · have hxid : x.id = b.id := by simpa using hx
      have hxi : (x.id == i) = false := by rw [hxid]; exact hbi
      simp only [hx, ite_true, Payment.findOffer, List.find?, hbi, hxi]
      simpa [Payment.findOffer, Payment.updateOffer] using ih
    · simp only [hx, Bool.false_eq_true, ite_false, Payment.findOffer,
        List.find?]
      cases hxi : (x.id == i) with
      | true => rfl
      | false => simpa [Payment.findOffer, Payment.updateOffer] using ih

/-- The application loop preserves the usage-limit invariant on every
catalog offer. -/
theorem apply_offers_loop_limOk (now : ℤ) (amount : ℚ) :
    ∀ (ids : List String) (offers : List Payment.Offer) (total : ℚ)
      (acc : List Payment.PaymentOffer),
      (∀ x ∈ offers, Spec.limOk x) →
      ∀ x ∈ (Payment.apply_offers_loop now amount ids offers total acc).2.2,
        Spec.limOk x := by
  intro ids
  induction ids with
  | nil =>
    intro offers total acc hall
    simpa [Payment.apply_offers_loop] using hall
  | cons i rest ih =>
    intro offers total acc hall
    simp only [Payment.apply_offers_loop]
    cases hfind : Payment.findOffer offers i with
    | none => exact ih offers total acc hall
    | some o =>
      by_cases hv : o.is_valid now = true
      · simp only [hv, ite_true]
        by_cases hpos : 0 < o.calculate_discount now (amount - total)
        · simp only [hpos, ite_true]
          apply ih
          intro x hx
          rcases List.mem_map.mp hx with ⟨y, hy, rfl⟩
          by_cases hid : y.id ==
              ({ o with current_usage := o.current_usage + 1 } :
                Payment.Offer).id
          · simp only [hid, ite_true]
            intro N hN h1
            have hlt : o.current_usage < N := is_valid_usage_lt hv hN h1
            show o.current_usage + 1 ≤ N
            omega
          · simp only [hid, Bool.false_eq_true, ite_false]
            exact hall y hy
        · simp only [hpos, ite_false]
          exact ih offers total acc hall
      · simp only [hv, Bool.false_eq_true, ite_false]
        exact ih offers total acc hall

/-- `apply_offers` preserves the usage-limit invariant. -/
theorem apply_offers_limOk (offers : List Payment.Offer) (now : ℤ)
    (amount : ℚ) (offer_ids : Option (List String))
    (hall : ∀ x ∈ offers, Spec.limOk x) :
    ∀ x ∈ (Payment.apply_offers offers now amount offer_ids).2.2,
      Spec.limOk x := by
  unfold Payment.apply_offers
  exact apply_offers_loop_limOk now amount _ offers 0 [] hall

/-- Any sequence of `apply_offers` calls preserves the usage-limit
invariant. -/
theorem applyMany_limOk (calls : List (ℤ × ℚ × Option (List String))) :
    ∀ offers : List Payment.Offer, (∀ x ∈ offers, Spec.limOk x) →
      ∀ x ∈ Spec.applyMany calls offers, Spec.limOk x := by
  induction calls with
  | nil =>
    intro offers hall
    simpa [Spec.applyMany] using hall
  | cons c rest ih =>
    intro offers hall
    simp only [Spec.applyMany, List.foldl_cons] at *
    exact ih _ (apply_offers_limOk offers c.1 c.2.1 c.2.2 hall)

/-- An offer whose usage has reached its positive limit passes through the
application loop untouched and contributes no applied entry. -/
theorem apply_offers_loop_reached (now : ℤ) (amount : ℚ)
    (o : Payment.Offer) (N : ℤ) (hN : o.usage_limit = some N) (h1 : 1 ≤ N)
    (hreach : N ≤ o.current_usage) :
    ∀ (ids : List String) (offers : List Payment.Offer) (total : ℚ)
      (acc : List Payment.PaymentOffer),
      Payment.findOffer offers o.id = some o →
      (∀ e ∈ acc, e.offer.id ≠ o.id) →
      Payment.findOffer
        (Payment.apply_offers_loop now amount ids offers total acc).2.2 o.id
        = some o
      ∧ ∀ e ∈ (Payment.apply_offers_loop now amount ids offers
          total acc).2.1, e.offer.id ≠ o.id := by
  intro ids
  induction ids with
  | nil =>
    intro offers total acc hf hacc
    simpa [Payment.apply_offers_loop] using ⟨hf, hacc⟩
  | cons i rest ih =>
    intro offers total acc hf hacc
    simp only [Payment.apply_offers_loop]
    cases hfind : Payment.findOffer offers i with
    | none => exact ih offers total acc hf hacc
    | some f =>
      by_cases hv : f.is_valid now = true
      · by_cases hio : i = o.id
        · subst hio
          rw [hf] at hfind
          have hfo : f = o := (Option.some.inj hfind).symm
          have hfalse : o.is_valid now = false :=
            is_valid_false_of_reached now hN h1 hreach
          rw [hfo, hfalse] at hv
          exact absurd hv (by simp)
        · have hfid : f.id = i := findOffer_id hfind
          have hfne : f.id ≠ o.id := by rw [hfid]; exact hio
          by_cases hpos : 0 < f.calculate_discount now (amount - total)
          · simp only [hv, ite_true, hpos]
            apply ih
            · rw [findOffer_updateOffer_ne]
              · exact hf
              · exact hfne
            · intro e he
              rcases List.mem_append.mp he with he1 | he2
              · exact hacc e he1
              · rcases List.mem_singleton.mp he2 with rfl
                exact hfne
          · simp only [hv, ite_true, hpos, ite_false]
            exact ih offers total acc hf hacc
      · simp only [hv, Bool.false_eq_true, ite_false]
        exact ih offers total acc hf hacc

/-- C8 counterexample: an offer with `usage_limit = 0` is applied anyway —
the zero limit is falsy in Python and acts as no limit — so after one
`apply_offers` call its `current_usage` is 1, exceeding the limit
`N = 0`. -/
theorem C8_counterexample :
    (Payment.apply_offers [Fix.limitZero] 0 100 none).2.2 =
      [{ Fix.limitZero with current_usage := 1 }]
    ∧ Fix.limitZero.usage_limit = some 0
    ∧ ¬ ((1 : ℤ) ≤ 0) := by
  refine ⟨by decide, by decide, by decide⟩

/-- C8 (amended): for every offer with a positive usage limit
`usage_limit = N ≥ 1` (a zero limit is falsy and disables the limit), after
any sequence of `apply_offers` calls the `current_usage` of the offer never
exceeds `N`; an offer whose usage has reached its limit is no longer valid,
is granted no further discount, and its counter is not incremented again. -/
theorem C8_usage_limit_invariant (offers : List Payment.Offer)
    (calls : List (ℤ × ℚ × Option (List String))) (now : ℤ) (amount : ℚ)
    (ids : Option (List String)) (o : Payment.Offer) (N : ℤ)
    (hall : ∀ x ∈ offers, Spec.limOk x)
    (hmem : Payment.findOffer offers o.id = some o)
    (hN : o.usage_limit = some N) (h1 : 1 ≤ N) :
    (∀ x ∈ Spec.applyMany calls offers, Spec.limOk x)
    ∧ (N ≤ o.current_usage →
        o.is_valid now = false
        ∧ Payment.findOffer
            (Payment.apply_offers offers now amount ids).2.2 o.id = some o
        ∧ ∀ e ∈ (Payment.apply_offers offers now amount ids).2.1,
            e.offer.id ≠ o.id) := by
  refine ⟨applyMany_limOk calls offers hall, ?_⟩
  intro hreach
  refine ⟨is_valid_false_of_reached now hN h1 hreach, ?_, ?_⟩
  · unfold Payment.apply_offers
    exact (apply_offers_loop_reached now amount o N hN h1 hreach _ offers 0
      [] hmem (by simp)).1
  · unfold Payment.apply_offers
    exact (apply_offers_loop_reached now amount o N hN h1 hreach _ offers 0
      [] hmem (by simp)).2

/-- Witness for the amended C8 at a one-use offer that has already been
granted once. -/
theorem C8_usage_limit_invariant_witness :
    Payment.findOffer [Fix.limitOneUsed] Fix.limitOneUsed.id =
      some Fix.limitOneUsed
    ∧ Fix.limitOneUsed.usage_limit = some 1
    ∧ (1 : ℤ) ≤ 1
    ∧ ((1 : ℤ) ≤ Fix.limitOneUsed.current_usage →
        Fix.limitOneUsed.is_valid 0 = false
        ∧ Payment.findOffer
            (Payment.apply_offers [Fix.limitOneUsed] 0 100 none).2.2
            Fix.limitOneUsed.id = some Fix.limitOneUsed
        ∧ ∀ e ∈ (Payment.apply_offers [Fix.limitOneUsed] 0 100 none).2.1,
            e.offer.id ≠ Fix.limitOneUsed.id) := by
  have hall : ∀ x ∈ [Fix.limitOneUsed], Spec.limOk x := by
    intro x hx
    rcases List.mem_singleton.mp hx with rfl
    intro M hM h1M
    have hM1 : Fix.limitOneUsed.usage_limit = some (1 : ℤ) := rfl
    rw [hM1] at hM
    rw [← Option.some.inj hM]
    decide
  exact ⟨by decide, by decide, by decide,
    (C8_usage_limit_invariant [Fix.limitOneUsed] [(0, 100, none)] 0 100 none
      Fix.limitOneUsed 1 hall (by decide) (by decide) (by decide)).2⟩
